import Mathlib

/-!
Verification development for the tasker-core Python step-handler execution
framework (workers/python/python/tasker_core/step_handler/functional.py and
the checkpoint-yield batch handlers under workers/python/tests/handlers).

The Python code is shallowly embedded: structured data (Python dicts / JSON
payloads) becomes the inductive type Value; a handler invocation becomes a
total Lean function; raised exceptions become an explicit Except channel.
Modules of the repository that are not part of the provided source tree
(tasker_core.types, tasker_core.errors, the Batchable and Decision mixins)
are modelled from the specification; each such definition carries a doc
comment starting with "Modelled from the spec:".
-/

namespace TaskerCore

/-- Structured data value: embedding of the JSON-like Python values
(dicts, lists, strings, ints, bools, None) that flow through handler
payloads.  Python dicts are association lists of string keys. -/
inductive Value where
  | vNull : Value
  | vBool (b : Bool) : Value
  | vInt (n : Int) : Value
  | vStr (s : String) : Value
  | vList (xs : List Value) : Value
  | vObj (fields : List (String × Value)) : Value

/-- Lookup a key in a string-keyed association list (first match, as Python
dict lookup on insertion-unique keys). -/
def slookup {α : Type} (l : List (String × α)) (k : String) : Option α :=
  match l with
  | [] => none
  | (k2, v) :: rest => if k2 = k then some v else slookup rest k

/-- Lookup a key in an association-list object body. -/
def alookup (fields : List (String × Value)) (k : String) : Option Value :=
  slookup fields k

/-- Python d.get(k, default) on an embedded object body. -/
def agetD (fields : List (String × Value)) (k : String) (d : Value) : Value :=
  (alookup fields k).getD d

/-- Modelled from the spec: the error taxonomy of tasker_core.types.ErrorType
(module not in the provided sources).  Members are those used by the source
(VALIDATION_ERROR, PERMANENT_ERROR, RETRYABLE_ERROR, HANDLER_ERROR) plus the
DEPENDENCY_MISSING kind the spec lists in §7. -/
inductive ErrorType where
  | VALIDATION_ERROR : ErrorType
  | DEPENDENCY_MISSING : ErrorType
  | PERMANENT_ERROR : ErrorType
  | RETRYABLE_ERROR : ErrorType
  | HANDLER_ERROR : ErrorType
  deriving Repr, DecidableEq

/-- Modelled from the spec: tasker_core.types.StepHandlerResult (module not in
the provided sources).  §3: a tagged union Success{payload} |
Failure{message, error_kind, retryable, metadata}; both carry a metadata
object (the tests read result.metadata on successes too). -/
inductive StepHandlerResult where
  | success (result : Value) (metadata : List (String × Value)) : StepHandlerResult
  | failure (message : String) (error_type : ErrorType) (retryable : Bool)
      (metadata : List (String × Value)) : StepHandlerResult

/-- is_success flag of a result. -/
def StepHandlerResult.is_success : StepHandlerResult → Bool
  | .success _ _ => true
  | .failure _ _ _ _ => false

/-- The retryable flag carried by a failure result (none on success). -/
def StepHandlerResult.retryableFlag : StepHandlerResult → Option Bool
  | .success _ _ => none
  | .failure _ _ r _ => some r

/-- The error kind carried by a failure result (none on success). -/
def StepHandlerResult.errorKind : StepHandlerResult → Option ErrorType
  | .success _ _ => none
  | .failure _ et _ _ => some et

/-- The success payload of a result (none on failure). -/
def StepHandlerResult.payload : StepHandlerResult → Option Value
  | .success p _ => some p
  | .failure _ _ _ _ => none

/-- Modelled from the spec: the exception universe seen by the handler
wrapper.  tasker_core.errors is not in the provided sources; per the except
clauses in functional.py and spec §4.1, PermanentError and RetryableError
are TaskerError subclasses (each carrying a metadata dict), TaskerError
carries its own retryable flag, and any other exception is an arbitrary
Python exception with a type name, message and traceback text. -/
inductive Exc where
  | permanentError (message : String) (metadata : List (String × Value)) : Exc
  | retryableError (message : String) (metadata : List (String × Value)) : Exc
  | taskerError (message : String) (retryable : Bool)
      (metadata : List (String × Value)) : Exc
  | otherExc (exceptionType : String) (message : String) (tb : String) : Exc

/-- Embedding of _wrap_exception (functional.py lines 167-196): classify an
exception into a failure StepHandlerResult.  The isinstance chain checks
PermanentError, then RetryableError, then TaskerError, then falls back to
the retryable-by-default unknown-exception branch. -/
def wrapException : Exc → StepHandlerResult
  | .permanentError msg md => .failure msg .PERMANENT_ERROR false md
  | .retryableError msg md => .failure msg .RETRYABLE_ERROR true md
  | .taskerError msg r md => .failure msg .HANDLER_ERROR r md
  | .otherExc ty msg tb =>
      .failure msg .HANDLER_ERROR true
        [("exception_type", .vStr ty), ("traceback", .vStr tb)]

/-- Modelled from the spec: tasker_core.types.DecisionType (module not in the
provided sources); the two outcome kinds used by functional.py. -/
inductive DecisionType where
  | CREATE_STEPS : DecisionType
  | NO_BRANCHES : DecisionType
  deriving Repr, DecidableEq

/-- Modelled from the spec: tasker_core.types.DecisionPointOutcome (module not
in the provided sources).  Carries the decision kind, the ordered next-step
names, an optional skip reason, and a routing-context dict (§4.4). -/
structure DecisionPointOutcome where
  decision_type : DecisionType
  next_step_names : List String
  reason : Option String
  routing_context : List (String × Value)

/-- Modelled from the spec: DecisionPointOutcome.create_steps constructor —
routes to the given steps, order preserved, no reason. -/
def DecisionPointOutcome.create_steps (step_names : List String)
    (routing_context : List (String × Value)) : DecisionPointOutcome :=
  ⟨.CREATE_STEPS, step_names, none, routing_context⟩

/-- Modelled from the spec: DecisionPointOutcome.no_branches constructor —
skips all branches with the given reason string. -/
def DecisionPointOutcome.no_branches (reason : String)
    (routing_context : List (String × Value)) : DecisionPointOutcome :=
  ⟨.NO_BRANCHES, [], some reason, routing_context⟩

/-- Embedding of the Decision helper dataclass (functional.py lines 73-122). -/
structure Decision where
  outcome : DecisionPointOutcome

/-- Decision.route (functional.py lines 91-107).  The Python body passes
routing_context if truthy else {}; an empty keyword dict and {} coincide, so
the embedding passes the dict through. -/
def Decision.route (steps : List String)
    (routing_context : List (String × Value)) : Decision :=
  ⟨.create_steps steps routing_context⟩

/-- Decision.skip (functional.py lines 109-122). -/
def Decision.skip (reason : String)
    (routing_context : List (String × Value)) : Decision :=
  ⟨.no_branches reason routing_context⟩

/-- Embedding of the BatchConfig dataclass (functional.py lines 125-138).
Item counts are embedded as Nat: the spec constrains the analyzer contract
to total_items >= 0 and batch_size >= 1 (§8 partition completeness). -/
structure BatchConfig where
  total_items : Nat
  batch_size : Nat
  metadata : List (String × Value)

/-- A runtime value a user handler function may return.  The constructors
separate exactly the classes the source discriminates between with
isinstance / hasattr checks: a StepHandlerResult, a dict, an object exposing
model_dump (carried together with its model_dump(mode="json") serialization),
None, a Decision, a BatchConfig, and anything else (string, number, list,
...) carried by its Value embedding.  Decision and BatchConfig are plain
dataclasses: they are not dicts and expose no model_dump. -/
inductive PyVal where
  | pResult (r : StepHandlerResult) : PyVal
  | pDict (fields : List (String × Value)) : PyVal
  | pModel (modelName : String) (dump : Value) : PyVal
  | pNone : PyVal
  | pDecision (d : Decision) : PyVal
  | pBatchConfig (c : BatchConfig) : PyVal
  | pOther (v : Value) : PyVal

/-- Value rendering of a DecisionPointOutcome, used only for the fallback
branch of _wrap_result when a Decision reaches a non-decision handler. -/
def encodeDecisionOutcome (o : DecisionPointOutcome) : Value :=
  .vObj [("decision_type", .vStr (match o.decision_type with
            | .CREATE_STEPS => "create_steps"
            | .NO_BRANCHES => "no_branches")),
         ("next_step_names", .vList (o.next_step_names.map .vStr)),
         ("reason", match o.reason with | some r => .vStr r | none => .vNull),
         ("routing_context", .vObj o.routing_context)]

/-- The Value carried into the Success({"result": value}) fallback of
_wrap_result for values that are not results, dicts, models or None. -/
def PyVal.fallbackValue : PyVal → Value
  | .pResult _ => .vNull
  | .pDict f => .vObj f
  | .pModel _ dump => dump
  | .pNone => .vNull
  | .pOther v => v
  | .pDecision d => .vObj [("outcome", encodeDecisionOutcome d.outcome)]
  | .pBatchConfig c =>
      .vObj [("total_items", .vInt c.total_items),
             ("batch_size", .vInt c.batch_size),
             ("metadata", .vObj c.metadata)]

/-- Embedding of _wrap_result (functional.py lines 146-164): convert a handler
return value to a StepHandlerResult.  Precedence: StepHandlerResult passes
through; a dict becomes success; an object with model_dump is serialized and
becomes success; None becomes success({}); anything else becomes
success({"result": value}). -/
def wrapResult : PyVal → StepHandlerResult
  | .pResult r => r
  | .pDict f => .success (.vObj f) []
  | .pModel _ dump => .success dump []
  | .pNone => .success (.vObj []) []
  | v => .success (.vObj [("result", v.fallbackValue)]) []

/-- The per-invocation execution context fields the functional handlers read.
Modelled from the spec: tasker_core.types.StepContext is not in the provided
sources; §3/§6 describe it as a read-only map of task inputs, upstream
dependency results and the current retry count. -/
structure StepContext where
  input_data : List (String × Value)
  dependency_results : List (String × Value)
  retry_count : Nat

/-- Modelled from the spec: context.get_input(key) — pure lookup, absent key
gives None (§6). -/
def StepContext.get_input (ctx : StepContext) (k : String) : Value :=
  (alookup ctx.input_data k).getD .vNull

/-- Modelled from the spec: context.get_dependency_result(step_name) — pure
lookup, absent step gives None (§6). -/
def StepContext.get_dependency_result (ctx : StepContext) (k : String) : Value :=
  (alookup ctx.dependency_results k).getD .vNull

/-- Modelled from the spec: a Pydantic-style model class as the injection
code uses it — an ordered field list (model_fields) and a construction-time
validation function (running the model initializer may raise, §4.2); the
classmethod model_construct bypasses validate entirely. -/
structure ModelClass where
  name : String
  fields : List String
  validate : List (String × Value) → Except Exc (List (String × Value))

/-- A resolved call argument: a plain value, a constructed model instance
(model name plus its field dict), or the StepContext itself. -/
inductive Arg where
  | val (v : Value) : Arg
  | modelInst (modelName : String) (fields : List (String × Value)) : Arg
  | ctxArg : Arg

/-- The keyword-argument dict being built by _inject_args: a finite map from
parameter name to argument, embedded as a function (later writes win, as in
a Python dict). -/
def Kwargs : Type := String → Option Arg

/-- kwargs[k] = a : pointwise update of the keyword dict. -/
def kupd (m : Kwargs) (k : String) (a : Arg) : Kwargs :=
  fun q => if q = k then some a else m q

/-- The registration-time metadata _inject_args reads off the decorated
function: the _depends_on map, the _dep_models map, the _inputs key list, the
optional _input_model, and whether the signature declares a context or
_context parameter. -/
structure FnMeta where
  dep_map : List (String × String)
  dep_models : List (String × ModelClass)
  input_keys : List String
  input_model : Option ModelClass
  accepts_context : Bool
  accepts_uscore_context : Bool

/-- The argument one dependency entry resolves to (functional.py lines
215-220): look the dependency up; when a model class is registered for the
parameter and the raw result is a dict, inject model_construct(**raw) — no
validation; otherwise inject the raw value unchanged (None included). -/
def depArg (ctx : StepContext) (dep_models : List (String × ModelClass))
    (param step : String) : Arg :=
  match slookup dep_models param, ctx.get_dependency_result step with
  | some mc, .vObj fields => .modelInst mc.name fields
  | _, _ => .val (ctx.get_dependency_result step)

/-- Dependency-injection loop of _inject_args (functional.py lines 213-220):
kwargs[param_name] = the resolved dependency argument, in declaration
order. -/
def injectDeps (ctx : StepContext) (dep_models : List (String × ModelClass)) :
    List (String × String) → Kwargs → Kwargs
  | [], m => m
  | (param, step) :: rest, m =>
      injectDeps ctx dep_models rest (kupd m param (depArg ctx dep_models param step))

/-- String-keyed input injection loop of _inject_args (functional.py lines
230-231): each declared key is looked up with get_input and injected. -/
def injectInputs (ctx : StepContext) : List String → Kwargs → Kwargs
  | [], m => m
  | k :: rest, m => injectInputs ctx rest (kupd m k (.val (ctx.get_input k)))

/-- Embedding of _inject_args (functional.py lines 199-240).  Dependencies
are injected first; then either the input model is constructed from
get_input over its fields (its validation may raise, propagating as an
exception) and bound to the "inputs" parameter, or the string input keys are
injected; finally the context is bound to "context" or "_context" when the
signature declares one. -/
def injectArgs (fm : FnMeta) (ctx : StepContext) : Except Exc Kwargs := do
  let m1 := injectDeps ctx fm.dep_models fm.dep_map (fun _ => none)
  let m2 ←
    match fm.input_model with
    | some mc => do
        let model_data := mc.fields.map (fun f => (f, ctx.get_input f))
        let validated ← mc.validate model_data
        pure (kupd m1 "inputs" (.modelInst mc.name validated))
    | none => pure (injectInputs ctx fm.input_keys m1)
  if fm.accepts_context then
    pure (kupd m2 "context" .ctxArg)
  else if fm.accepts_uscore_context then
    pure (kupd m2 "_context" .ctxArg)
  else
    pure m2

/-- Embedding of SyncFunctionalHandler.call (functional.py lines 289-304):
inject arguments, run the user function, normalize its return value with
_wrap_result, and classify any raised exception with _wrap_exception.  The
user function is embedded as a function from the keyword dict to either a
return value or a raised exception. -/
def syncFunctionalCall (fm : FnMeta) (fn : Kwargs → Except Exc PyVal)
    (ctx : StepContext) : StepHandlerResult :=
  match (do pure (wrapResult (← fn (← injectArgs fm ctx))) : Except Exc StepHandlerResult) with
  | .ok r => r
  | .error exc => wrapException exc

/-- Python x or y on an Optional[str]: None and the empty string are falsy
and give the default. -/
def pyOrStr (o : Option String) (d : String) : String :=
  match o with
  | some s => if s = "" then d else s
  | none => d

/-- Modelled from the spec: DecisionMixin.decision_success (the mixin module
is not in the provided sources).  §4.4 and the shape asserted by
test_functional_handlers.py lines 316-323: a Success whose payload carries
decision_point_outcome = {type: "create_steps", step_names} with
routing_context at the payload level, and decision_handler /
decision_version metadata. -/
def decisionSuccess (handlerName handlerVersion : String)
    (step_names : List String)
    (routing_context : List (String × Value)) : StepHandlerResult :=
  .success
    (.vObj [("decision_point_outcome",
              .vObj [("type", .vStr "create_steps"),
                     ("step_names", .vList (step_names.map .vStr))]),
            ("routing_context", .vObj routing_context)])
    [("decision_handler", .vStr handlerName),
     ("decision_version", .vStr handlerVersion)]

/-- Modelled from the spec: DecisionMixin.skip_branches (the mixin module is
not in the provided sources).  §4.4 and test_functional_handlers.py lines
333-339: a Success whose payload carries decision_point_outcome =
{type: "no_branches"} with reason and routing_context at the payload level. -/
def skipBranches (handlerName handlerVersion : String) (reason : String)
    (routing_context : List (String × Value)) : StepHandlerResult :=
  .success
    (.vObj [("decision_point_outcome", .vObj [("type", .vStr "no_branches")]),
            ("reason", .vStr reason),
            ("routing_context", .vObj routing_context)])
    [("decision_handler", .vStr handlerName),
     ("decision_version", .vStr handlerVersion)]

/-- Embedding of SyncDecisionHandler.call (functional.py lines 512-532): a
StepHandlerResult returned directly passes through; a Decision is routed to
decision_success or skip_branches (the skip reason is the Python expression
outcome.reason or "No branches"); any other value goes through _wrap_result;
a raised exception goes through _wrap_exception. -/
def syncDecisionCall (fm : FnMeta) (fn : Kwargs → Except Exc PyVal)
    (handlerName handlerVersion : String) (ctx : StepContext) : StepHandlerResult :=
  match (do fn (← injectArgs fm ctx) : Except Exc PyVal) with
  | .ok (.pResult r) => r
  | .ok (.pDecision d) =>
      if d.outcome.decision_type = .CREATE_STEPS then
        decisionSuccess handlerName handlerVersion d.outcome.next_step_names
          d.outcome.routing_context
      else
        skipBranches handlerName handlerVersion
          (pyOrStr d.outcome.reason "No branches") d.outcome.routing_context
  | .ok raw => wrapResult raw
  | .error exc => wrapException exc

/-- Modelled from the spec: the number of cursor ranges the Batchable mixin
generates (the mixin module is not in the provided sources) — §4.5:
num_ranges = ceil(total_items / batch_size); no worker cap is supplied on the
decorator path.  Embedded as the usual Nat ceiling division. -/
def numBatches (total_items batch_size : Nat) : Nat :=
  (total_items + batch_size - 1) / batch_size

/-- Modelled from the spec: the cursor ranges Batchable.create_batch_outcome
generates (§4.5): contiguous half-open ranges of width batch_size (the last
possibly shorter) covering exactly 0 up to total_items; zero items give zero
ranges.  Range i is i*B up to min((i+1)*B, T). -/
def cursorConfigs (total_items batch_size : Nat) : List (Nat × Nat) :=
  (List.range (numBatches total_items batch_size)).map
    (fun i => (i * batch_size, min ((i + 1) * batch_size) total_items))

/-- Modelled from the spec: Batchable.batch_analyzer_success applied to
create_batch_outcome (neither in the provided sources).  Shape per §6
("batch_processing_outcome carrying type create_batches,
worker_template_name, total_items, worker_count, cursor_configs") and
test_functional_handlers.py lines 380-402 (worker_count and total_items are
mirrored at the payload level; metadata carries batch_analyzer = true). -/
def batchAnalyzerSuccess (workerTemplate : String) (total_items batch_size : Nat)
    (batch_metadata : List (String × Value)) : StepHandlerResult :=
  .success
    (.vObj [("batch_processing_outcome",
              .vObj [("type", .vStr "create_batches"),
                     ("worker_template_name", .vStr workerTemplate),
                     ("total_items", .vInt total_items),
                     ("worker_count", .vInt (numBatches total_items batch_size)),
                     ("cursor_configs",
                       .vList ((cursorConfigs total_items batch_size).map
                         (fun r => .vObj [("start_cursor", .vInt r.1),
                                          ("end_cursor", .vInt r.2)]))),
                     ("batch_metadata", .vObj batch_metadata)]),
            ("total_items", .vInt total_items),
            ("worker_count", .vInt (numBatches total_items batch_size))])
    [("batch_analyzer", .vBool true)]

/-- Embedding of SyncBatchAnalyzerHandler.call (functional.py lines 603-628):
a StepHandlerResult returned directly passes through; a BatchConfig is
expanded through create_batch_outcome / batch_analyzer_success (the Python
passes raw_result.metadata or {}, identical to the metadata dict itself
since an empty dict and {} coincide); any other value goes through
_wrap_result; a raised exception goes through _wrap_exception. -/
def syncBatchAnalyzerCall (fm : FnMeta) (fn : Kwargs → Except Exc PyVal)
    (workerTemplate : String) (ctx : StepContext) : StepHandlerResult :=
  match (do fn (← injectArgs fm ctx) : Except Exc PyVal) with
  | .ok (.pResult r) => r
  | .ok (.pBatchConfig c) =>
      batchAnalyzerSuccess workerTemplate c.total_items c.batch_size c.metadata
  | .ok raw => wrapResult raw
  | .error exc => wrapException exc

/-- The accumulated-results dict of the checkpoint-yield worker
(checkpoint_yield_handlers.py lines 83-91): running_total plus the ordered
item-id list.  All added values are item values cursor+1, so Nat. -/
structure Accumulated where
  running_total : Nat
  item_ids : List String
  deriving Repr, DecidableEq

/-- A suspended-worker snapshot (spec §3 CheckpointState): cursor,
items_processed, accumulated_results, reattached verbatim on resume. -/
structure CheckpointState where
  cursor : Nat
  items_processed : Nat
  accumulated_results : Accumulated
  deriving Repr, DecidableEq

/-- The metadata dict _inject_failure attaches to an injected failure
(checkpoint_yield_handlers.py lines 139-163). -/
structure FailureMeta where
  items_processed : Nat
  cursor_at_failure : Nat
  failure_type : String
  deriving Repr, DecidableEq

/-- The batch_metadata dict of batch_worker_success as the checkpoint-yield
worker builds it (checkpoint_yield_handlers.py lines 128-137): the
accumulated dict spread in, plus final_cursor and checkpoints_used. -/
structure BatchSuccessMeta where
  acc : Accumulated
  final_cursor : Nat
  checkpoints_used : Nat
  deriving Repr, DecidableEq

/-- Modelled from the spec: the three terminal shapes a batch-worker
invocation can produce (§6): Failure, Checkpoint{cursor, items_processed,
accumulated_results}, or Success.  The Batchable constructors failure,
checkpoint_yield and batch_worker_success (not in the provided sources) are
embedded as the three constructors, carrying exactly the fields the
checkpoint-yield worker passes them. -/
inductive WorkerResult where
  | failure (message : String) (error_type : ErrorType) (retryable : Bool)
      (meta : FailureMeta) : WorkerResult
  | checkpoint (cursor : Nat) (items_processed : Nat)
      (accumulated_results : Accumulated) : WorkerResult
  | success (items_processed items_succeeded items_failed : Nat)
      (batch_metadata : BatchSuccessMeta) : WorkerResult
  deriving Repr, DecidableEq

/-- Python f"item_{cursor:04d}": decimal digits zero-padded to width 4. -/
def itemId (cursor : Nat) : String :=
  let s := toString cursor
  "item_" ++ String.mk (List.replicate (4 - s.length) '0') ++ s

/-- Processing of one item at the cursor (checkpoint_yield_handlers.py lines
109-113): value = cursor + 1 added to running_total, item id appended. -/
def stepItem (cursor : Nat) (acc : Accumulated) : Accumulated :=
  ⟨acc.running_total + (cursor + 1), acc.item_ids ++ [itemId cursor]⟩

/-- Uninterrupted item-fold over count items starting at the cursor: the
pure reference semantics a worker invocation chain must agree with. -/
def foldRange (cursor : Nat) : Nat → Accumulated → Accumulated
  | 0, acc => acc
  | n + 1, acc => foldRange (cursor + 1) n (stepItem cursor acc)

/-- The failure-injection condition (checkpoint_yield_handlers.py lines
102-106): fail_after_items is not None and total_processed >=
fail_after_items and current_attempt == fail_on_attempt. -/
def failDue (fail_after : Option Nat) (total_processed attempt fail_on_attempt : Nat) :
    Bool :=
  match fail_after with
  | some f => decide (f ≤ total_processed) && decide (attempt = fail_on_attempt)
  | none => false

/-- Embedding of CheckpointYieldWorkerDslHandler._inject_failure
(checkpoint_yield_handlers.py lines 139-163). -/
def injectFailureResult (items_processed cursor : Nat) (permanent : Bool) :
    WorkerResult :=
  if permanent then
    .failure ("Injected permanent failure after " ++ toString items_processed
        ++ " items")
      .PERMANENT_ERROR false ⟨items_processed, cursor, "permanent"⟩
  else
    .failure ("Injected transient failure after " ++ toString items_processed
        ++ " items")
      .RETRYABLE_ERROR true ⟨items_processed, cursor, "transient"⟩

/-- Embedding of the while loop of CheckpointYieldWorkerDslHandler.call
(checkpoint_yield_handlers.py lines 100-137).  Per iteration: the
failure-injection check runs first (before any accumulated-state mutation
for the item); then one item is processed and cursor / items_in_chunk /
total_processed advance; a checkpoint is yielded when items_in_chunk has
reached items_per_checkpoint and items remain.  On loop exit the success
result carries total_processed and batch metadata with final_cursor and
checkpoints_used = total_processed / items_per_checkpoint (Python //;
items_per_checkpoint = 0 would raise there, the claims assume it >= 1). -/
def workerLoop (endCursor icp : Nat) (fail_after : Option Nat) (foa : Nat)
    (permanent : Bool) (attempt : Nat) (cursor : Nat) (acc : Accumulated)
    (total_processed : Nat) (items_in_chunk : Nat) : WorkerResult :=
  if cursor < endCursor then
    if failDue fail_after total_processed attempt foa then
      injectFailureResult total_processed cursor permanent
    else
      let acc2 := stepItem cursor acc
      let cursor2 := cursor + 1
      let chunk2 := items_in_chunk + 1
      let tp2 := total_processed + 1
      if icp ≤ chunk2 ∧ cursor2 < endCursor then
        .checkpoint cursor2 tp2 acc2
      else
        workerLoop endCursor icp fail_after foa permanent attempt cursor2 acc2
          tp2 chunk2
  else
    .success total_processed total_processed 0 ⟨acc, cursor, total_processed / icp⟩
  termination_by endCursor - cursor

/-- Embedding of one invocation of CheckpointYieldWorkerDslHandler.call
(checkpoint_yield_handlers.py lines 55-137) after its input extraction, as a
function of the assigned cursor range, the checkpoint interval, the
failure-injection parameters, the retry count and the optional reattached
checkpoint.  On resume the Python start cursor is checkpoint_cursor or
range-start (Python or: a zero cursor is falsy and falls back), accumulated
is the reattached dict (always truthy: it has two keys), and total_processed
is checkpoint_items_processed; current_attempt = retry_count + 1. -/
def workerInvoke (startCursor endCursor icp : Nat) (fail_after : Option Nat)
    (foa : Nat) (permanent : Bool) (retry_count : Nat)
    (ck : Option CheckpointState) : WorkerResult :=
  match ck with
  | some c =>
      let cur := if c.cursor = 0 then startCursor else c.cursor
      workerLoop endCursor icp fail_after foa permanent (retry_count + 1) cur
        c.accumulated_results c.items_processed 0
  | none =>
      workerLoop endCursor icp fail_after foa permanent (retry_count + 1)
        startCursor ⟨0, []⟩ 0 0

/-- The orchestrator-driven invocation chain for one logical worker (spec
§4.5 state machine): invoke; while the result is a Checkpoint, store the
snapshot and re-invoke with it reattached.  Returns the committed checkpoint
snapshots in order together with the terminal result.  fuel bounds the
number of resumes (each checkpoint advances the cursor, so endCursor -
startCursor resumes always suffice). -/
def chainExec (fuel : Nat) (startCursor endCursor icp : Nat)
    (fail_after : Option Nat) (foa : Nat) (permanent : Bool)
    (retry_count : Nat) (ck : Option CheckpointState) :
    List CheckpointState × WorkerResult :=
  match fuel with
  | 0 => ([], workerInvoke startCursor endCursor icp fail_after foa permanent
      retry_count ck)
  | fuel2 + 1 =>
      match workerInvoke startCursor endCursor icp fail_after foa permanent
          retry_count ck with
      | .checkpoint c tp acc =>
          let s : CheckpointState := ⟨c, tp, acc⟩
          let rest := chainExec fuel2 startCursor endCursor icp fail_after foa
            permanent retry_count (some s)
          (s :: rest.1, rest.2)
      | r => ([], r)

/-- Python truthiness of an embedded value: None, False, 0, the empty
string, the empty list and the empty dict are falsy. -/
def pyTruthy : Value → Bool
  | .vNull => false
  | .vBool b => b
  | .vInt n => decide (n ≠ 0)
  | .vStr s => decide (s ≠ "")
  | .vList xs => !xs.isEmpty
  | .vObj f => !f.isEmpty

/-- Python v.get(k, d) where v is expected to be a dict; a non-dict yields
the default (the aggregator only meets worker-result dicts there). -/
def objGetD (v : Value) (k : String) (d : Value) : Value :=
  match v with
  | .vObj f => agetD f k d
  | _ => d

/-- Numeric read of an embedded value (the aggregator folds int fields;
payloads are well-typed worker results). -/
def asInt : Value → Int
  | .vInt n => n
  | _ => 0

/-- List read of an embedded value. -/
def asList : Value → List Value
  | .vList xs => xs
  | _ => []

/-- Modelled from the spec: the AggregationScenario record (§3) produced by
Batchable.detect_aggregation_scenario (not in the provided sources). -/
structure AggregationScenario where
  worker_count : Nat
  is_no_batches : Bool
  batch_results : List (String × Value)

/-- Modelled from the spec: Batchable.detect_aggregation_scenario (not in the
provided sources) — §3: derived by scanning dependency results for the
worker-name prefix; zero matches is the no-batches scenario.  The analyzer
step name argument does not influence the fields this development reads. -/
def detectAggregationScenario (dependency_results : List (String × Value))
    (_analyzerStep : String) (workerPfx : String) : AggregationScenario :=
  let hits := dependency_results.filter (fun kv => kv.1.startsWith workerPfx)
  ⟨hits.length, hits.isEmpty, hits⟩

/-- Modelled from the spec: Batchable.no_batches_aggregation_result (not in
the provided sources) — §4.5: returns a stable well-formed Success carrying
the given zero-valued summary, not an error. -/
def noBatchesAggregationResult (summary : List (String × Value)) :
    StepHandlerResult :=
  .success (.vObj summary) []

/-- The with-batches fold of CheckpointYieldAggregatorDslHandler.call
(checkpoint_yield_handlers.py lines 192-203): for each truthy worker result,
add items_processed, and from its batch_metadata add running_total, extend
item_ids and add checkpoints_used.  State: (total_processed, running_total,
all_item_ids, checkpoints_used). -/
def aggFold : List (String × Value) → Int × Int × List Value × Int →
    Int × Int × List Value × Int
  | [], st => st
  | (_, result) :: rest, (tp, rt, ids, cks) =>
      if pyTruthy result then
        let bm := objGetD result "batch_metadata" (.vObj [])
        aggFold rest
          (tp + asInt (objGetD result "items_processed" (.vInt 0)),
           rt + asInt (objGetD bm "running_total" (.vInt 0)),
           ids ++ asList (objGetD bm "item_ids" (.vList [])),
           cks + asInt (objGetD bm "checkpoints_used" (.vInt 0)))
      else
        aggFold rest (tp, rt, ids, cks)

/-- The analyzer-step and worker-template names the aggregator passes to
detect_aggregation_scenario (checkpoint_yield_handlers.py lines 176-180). -/
def checkpointYieldWorkerPfx : String := "checkpoint_yield_batch_dsl_py_"

/-- Embedding of CheckpointYieldAggregatorDslHandler.call
(checkpoint_yield_handlers.py lines 174-215): detect the scenario from the
dependency results; zero matching worker results give the explicit
zero-valued no-batches summary; otherwise fold worker results into totals
and return the with-batches summary. -/
def aggregatorCall (ctx : StepContext) : StepHandlerResult :=
  let scenario := detectAggregationScenario ctx.dependency_results
    "analyze_items_dsl_py" checkpointYieldWorkerPfx
  if scenario.is_no_batches then
    noBatchesAggregationResult
      [("total_processed", .vInt 0), ("running_total", .vInt 0),
       ("test_passed", .vBool true), ("scenario", .vStr "no_batches")]
  else
    let st := aggFold scenario.batch_results (0, 0, [], 0)
    .success
      (.vObj [("total_processed", .vInt st.1),
              ("running_total", .vInt st.2.1),
              ("item_count", .vInt st.2.2.1.length),
              ("checkpoints_used", .vInt st.2.2.2),
              ("worker_count", .vInt scenario.worker_count),
              ("test_passed", .vBool true),
              ("scenario", .vStr "with_batches")]) []

/-- Handler metadata with no declared dependencies, inputs or context
parameter (a bare decorated function). -/
def fmTriv : FnMeta := ⟨[], [], [], none, false, false⟩

/-- An empty execution context. -/
def ctxTriv : StepContext := ⟨[], [], 0⟩

/-- A user function returning a fixed StepHandlerResult directly. -/
def fnResult (r : StepHandlerResult) : Kwargs → Except Exc PyVal :=
  fun _ => .ok (.pResult r)

/-- A user function returning None. -/
def fnNone : Kwargs → Except Exc PyVal := fun _ => .ok .pNone

/-- A user function raising a fixed exception. -/
def fnRaise (e : Exc) : Kwargs → Except Exc PyVal := fun _ => .error e

/-- A user function returning Decision.route(["a", "b"], x=1). -/
def fnRoute : Kwargs → Except Exc PyVal :=
  fun _ => .ok (.pDecision (Decision.route ["a", "b"] [("x", .vInt 1)]))

/-- A user function returning Decision.skip("no items"). -/
def fnSkipNoItems : Kwargs → Except Exc PyVal :=
  fun _ => .ok (.pDecision (Decision.skip "no items" []))

/-- A user function returning Decision.skip("") — an empty reason string. -/
def fnSkipEmpty : Kwargs → Except Exc PyVal :=
  fun _ => .ok (.pDecision (Decision.skip "" []))

/-- A user function returning BatchConfig(total_items=250, batch_size=100),
the analyzer example of test_functional_handlers.py lines 374-376. -/
def fnBatch250 : Kwargs → Except Exc PyVal :=
  fun _ => .ok (.pBatchConfig ⟨250, 100, []⟩)

/-- A Success result used to exercise direct passthrough. -/
def resDirect : StepHandlerResult := .success (.vObj [("direct", .vBool true)]) []

/-- An input model whose construction-time validation rejects with a generic
(non-Tasker) exception — a Pydantic model with required fields rejects
missing values with pydantic.ValidationError, which is not a TaskerError. -/
def mcGenericReject : ModelClass :=
  ⟨"RefundInput", ["ticket_id", "customer_id"],
    fun _ => .error (.otherExc "ValidationError" "2 validation errors" "tb")⟩

/-- An input model rejecting construction by raising PermanentError, as
ValidatedRefundInput does in test_functional_handlers.py lines 610-628. -/
def mcPermReject : ModelClass :=
  ⟨"ValidatedRefundInput", ["ticket_id", "customer_id", "refund_amount"],
    fun _ =>
      .error (.permanentError "Missing required fields: customer_id, refund_amount" [])⟩

/-- Handler metadata declaring the generically-rejecting input model. -/
def fmGenericReject : FnMeta := ⟨[], [], [], some mcGenericReject, false, false⟩

/-- Handler metadata declaring the PermanentError-rejecting input model. -/
def fmPermReject : FnMeta := ⟨[], [], [], some mcPermReject, false, false⟩

/-- Handler metadata declaring one dependency and one input key, as the
missing-dependency tests do (test_functional_handlers.py lines 170-182 and
232-243). -/
def fmDepInput : FnMeta :=
  ⟨[("cart", "validate_cart")], [], ["payment_info"], none, false, false⟩

/-- A dependency model class that accepts any field set. -/
def mcApproval : ModelClass :=
  ⟨"ApprovalResult", ["approved", "approval_id"], fun fs => .ok fs⟩

/-- Handler metadata declaring a (step_name, ModelClass) typed dependency,
as in test_functional_handlers.py lines 721-743. -/
def fmTypedDep : FnMeta :=
  ⟨[("approval", "get_approval")], [("approval", mcApproval)], [], none, false, false⟩

/-- A context whose get_approval dependency result is a dict. -/
def ctxApprovalDict : StepContext :=
  ⟨[], [("get_approval",
          .vObj [("approved", .vBool true), ("approval_id", .vStr "APR-001")])], 0⟩

/-- A context whose get_approval dependency result is a non-dict value. -/
def ctxApprovalStr : StepContext := ⟨[], [("get_approval", .vStr "oops")], 0⟩

/-- A context whose only dependency result comes from the analyzer step, not
from any worker (its name does not carry the worker prefix). -/
def ctxAnalyzerOnly : StepContext :=
  ⟨[], [("analyze_items_dsl_py", .vObj [("total_items", .vInt 0)])], 0⟩

/-- Whether an argument-injection outcome raised no exception. -/
def injectionOk (r : Except Exc Kwargs) : Bool :=
  match r with
  | .ok _ => true
  | .error _ => false

/-- Read one bound argument out of an argument-injection outcome. -/
def argsOf (r : Except Exc Kwargs) (k : String) : Option Arg :=
  match r with
  | .ok m => m k
  | .error _ => none

lemma except_bind_ok {α β : Type} (a : α) (f : α → Except Exc β) :
    (Except.ok a >>= f) = f a := rfl

lemma except_bind_err {α β : Type} (e : Exc) (f : α → Except Exc β) :
    ((Except.error e : Except Exc α) >>= f) = Except.error e := rfl

lemma kupd_apply (m : Kwargs) (k : String) (a : Arg) (q : String) :
    kupd m k a q = if q = k then some a else m q := rfl

lemma slookup_append {α : Type} (l1 l2 : List (String × α)) (k : String) :
    slookup (l1 ++ l2) k =
      match slookup l1 k with
      | some v => some v
      | none => slookup l2 k := by
  induction l1 with
  | nil => rfl
  | cons kv rest ih =>
      obtain ⟨k2, v⟩ := kv
      by_cases h : k2 = k
      · simp [slookup, h]
      · simp [slookup, h, ih]

/-- The dependency-injection loop realizes last-binding-wins dict
semantics: the final value at a parameter is the argument of the last
dep_map entry for it (the first in the reversed list), and parameters with
no entry keep their prior binding. -/
lemma injectDeps_apply (ctx : StepContext) (dms : List (String × ModelClass)) :
    ∀ (l : List (String × String)) (m : Kwargs) (p : String),
      injectDeps ctx dms l m p =
        match slookup l.reverse p with
        | some s => some (depArg ctx dms p s)
        | none => m p := by
  intro l
  induction l with
  | nil => intro m p; rfl
  | cons kv rest ih =>
      obtain ⟨a, s⟩ := kv
      intro m p
      show injectDeps ctx dms rest (kupd m a (depArg ctx dms a s)) p = _
      rw [ih]
      have hrev : ((a, s) :: rest).reverse = rest.reverse ++ [(a, s)] := by
        simp
      rw [hrev, slookup_append]
      cases hl : slookup rest.reverse p with
      | some s2 => rfl
      | none =>
          show kupd m a (depArg ctx dms a s) p = _
          rw [kupd_apply]
          by_cases hpa : p = a
          · subst hpa; simp [slookup]
          · have : ¬(a = p) := fun h => hpa h.symm
            simp [slookup, hpa, this]

/-- The input-injection loop binds every declared key to its get_input
value (all writes for one key agree, so membership suffices), and leaves
undeclared keys untouched. -/
lemma injectInputs_apply (ctx : StepContext) :
    ∀ (l : List String) (m : Kwargs) (k : String),
      injectInputs ctx l m k =
        if k ∈ l then some (.val (ctx.get_input k)) else m k := by
  intro l
  induction l with
  | nil => intro m k; simp [injectInputs]
  | cons j rest ih =>
      intro m k
      show injectInputs ctx rest (kupd m j (.val (ctx.get_input j))) k = _
      rw [ih]
      by_cases hk : k ∈ rest
      · simp [hk, List.mem_cons]
      · rw [kupd_apply]
        by_cases hkj : k = j
        · subst hkj; simp [hk]
        · simp [hk, hkj]

/-- Characterization of _inject_args when no input model is declared: it
never raises, and the resulting keyword dict is: the context parameter if
declared, else the declared input keys, else the last dependency binding. -/
lemma injectArgs_none_apply (fm : FnMeta) (ctx : StepContext)
    (h : fm.input_model = none) :
    ∃ args, injectArgs fm ctx = .ok args ∧ ∀ k, args k =
      if fm.accepts_context ∧ k = "context" then some .ctxArg
      else if ¬fm.accepts_context ∧ fm.accepts_uscore_context ∧ k = "_context" then
        some .ctxArg
      else if k ∈ fm.input_keys then some (.val (ctx.get_input k))
      else
        match slookup fm.dep_map.reverse k with
        | some s => some (depArg ctx fm.dep_models k s)
        | none => none := by
  have hbase : ∀ k,
      injectInputs ctx fm.input_keys
        (injectDeps ctx fm.dep_models fm.dep_map (fun _ => none)) k =
      (if k ∈ fm.input_keys then some (.val (ctx.get_input k))
       else
        match slookup fm.dep_map.reverse k with
        | some s => some (depArg ctx fm.dep_models k s)
        | none => none) := by
    intro k
    rw [injectInputs_apply]
    by_cases hk : k ∈ fm.input_keys
    · simp [hk]
    · simp [hk, injectDeps_apply]
  cases hc : fm.accepts_context with
  | true =>
      refine ⟨kupd (injectInputs ctx fm.input_keys
          (injectDeps ctx fm.dep_models fm.dep_map (fun _ => none)))
          "context" .ctxArg, ?_, ?_⟩
      · simp [injectArgs, h, hc]; rfl
      · intro k
        rw [kupd_apply]
        by_cases hk : k = "context"
        · simp [hk, hc]
        · simp [hk, hc, hbase k]
  | false =>
      cases hu : fm.accepts_uscore_context with
      | true =>
          refine ⟨kupd (injectInputs ctx fm.input_keys
              (injectDeps ctx fm.dep_models fm.dep_map (fun _ => none)))
              "_context" .ctxArg, ?_, ?_⟩
          · simp [injectArgs, h, hc, hu]; rfl
          · intro k
            rw [kupd_apply]
            by_cases hk : k = "_context"
            · simp [hk, hc, hu]
            · simp [hk, hc, hu, hbase k]
      | false =>
          refine ⟨injectInputs ctx fm.input_keys
              (injectDeps ctx fm.dep_models fm.dep_map (fun _ => none)), ?_, ?_⟩
          · simp [injectArgs, h, hc, hu]; rfl
          · intro k
            simp [hc, hu, hbase k]

/-- C4: result normalization never produces a Failure and never drops the
value: a StepHandlerResult passes through unchanged (also when returned
directly inside decision and batch-analyzer handlers, bypassing their
normalization), a dict becomes Success(dict), an object exposing model_dump
becomes Success of its serialization, None becomes Success({}), and any
other value becomes Success({"result": value}). -/
theorem claim_C4_result_normalization :
    (∀ r, wrapResult (.pResult r) = r) ∧
    (∀ f, wrapResult (.pDict f) = .success (.vObj f) []) ∧
    (∀ n dump, wrapResult (.pModel n dump) = .success dump []) ∧
    (wrapResult .pNone = .success (.vObj []) []) ∧
    (∀ v, wrapResult (.pOther v) = .success (.vObj [("result", v)]) []) ∧
    (∀ d, wrapResult (.pDecision d) =
      .success (.vObj [("result", (PyVal.pDecision d).fallbackValue)]) []) ∧
    (∀ c, wrapResult (.pBatchConfig c) =
      .success (.vObj [("result", (PyVal.pBatchConfig c).fallbackValue)]) []) ∧
    (∀ fm fn hn hv ctx args r, injectArgs fm ctx = .ok args →
      fn args = .ok (.pResult r) → syncDecisionCall fm fn hn hv ctx = r) ∧
    (∀ fm fn wt ctx args r, injectArgs fm ctx = .ok args →
      fn args = .ok (.pResult r) → syncBatchAnalyzerCall fm fn wt ctx = r) := by
  refine ⟨fun r => rfl, fun f => rfl, fun n dump => rfl, rfl, fun v => rfl,
    fun d => rfl, fun c => rfl, ?_, ?_⟩
  · intro fm fn hn hv ctx args r h1 h2
    simp [syncDecisionCall, h1, h2, except_bind_ok]
  · intro fm fn wt ctx args r h1 h2
    simp [syncBatchAnalyzerCall, h1, h2, except_bind_ok]

/-- Witness for C4: a directly returned StepHandlerResult passes a decision
handler and a batch-analyzer handler unchanged at a concrete instance. -/
theorem claim_C4_witness :
    syncDecisionCall fmTriv (fnResult resDirect) "h" "1.0.0" ctxTriv = resDirect ∧
    syncBatchAnalyzerCall fmTriv (fnResult resDirect) "wt" ctxTriv = resDirect := by
  have h := claim_C4_result_normalization
  exact ⟨h.2.2.2.2.2.2.2.1 fmTriv (fnResult resDirect) "h" "1.0.0" ctxTriv _
      resDirect rfl rfl,
    h.2.2.2.2.2.2.2.2 fmTriv (fnResult resDirect) "wt" ctxTriv _ resDirect rfl rfl⟩

/-- C3: every exception raised during argument injection or by the user
function yields the classified Failure of _wrap_exception and never
propagates: PermanentError gives retryable=False kind PERMANENT,
RetryableError gives retryable=True kind RETRYABLE, TaskerError keeps its
own retryable flag, any other exception gives retryable=True with the
unclassified handler kind. -/
theorem claim_C3_exception_normalization :
    ∀ (fm : FnMeta) (fn : Kwargs → Except Exc PyVal) (ctx : StepContext) (e : Exc),
      (injectArgs fm ctx = .error e ∨
        ∃ args, injectArgs fm ctx = .ok args ∧ fn args = .error e) →
      syncFunctionalCall fm fn ctx = wrapException e ∧
      (wrapException e).is_success = false ∧
      (∀ m md, e = .permanentError m md →
        wrapException e = .failure m .PERMANENT_ERROR false md) ∧
      (∀ m md, e = .retryableError m md →
        wrapException e = .failure m .RETRYABLE_ERROR true md) ∧
      (∀ m r md, e = .taskerError m r md →
        wrapException e = .failure m .HANDLER_ERROR r md) ∧
      (∀ ty m tb, e = .otherExc ty m tb →
        wrapException e = .failure m .HANDLER_ERROR true
          [("exception_type", .vStr ty), ("traceback", .vStr tb)]) := by
  intro fm fn ctx e h
  refine ⟨?_, ?_, ?_, ?_, ?_, ?_⟩
  · rcases h with h | ⟨args, h1, h2⟩
    · simp [syncFunctionalCall, h, except_bind_err]
    · simp [syncFunctionalCall, h1, h2, except_bind_ok, except_bind_err]
  · cases e <;> rfl
  · intro m md he; subst he; rfl
  · intro m md he; subst he; rfl
  · intro m r md he; subst he; rfl
  · intro ty m tb he; subst he; rfl

/-- Witness for C3 at concrete exceptions of each class raised by the user
function of a bare handler. -/
theorem claim_C3_witness :
    syncFunctionalCall fmTriv (fnRaise (.permanentError "Invalid input" [])) ctxTriv =
      .failure "Invalid input" .PERMANENT_ERROR false [] ∧
    syncFunctionalCall fmTriv (fnRaise (.retryableError "Service unavailable" [])) ctxTriv =
      .failure "Service unavailable" .RETRYABLE_ERROR true [] ∧
    syncFunctionalCall fmTriv (fnRaise (.taskerError "domain fault" false [])) ctxTriv =
      .failure "domain fault" .HANDLER_ERROR false [] ∧
    syncFunctionalCall fmTriv (fnRaise (.otherExc "ValueError" "boom" "tb")) ctxTriv =
      .failure "boom" .HANDLER_ERROR true
        [("exception_type", .vStr "ValueError"), ("traceback", .vStr "tb")] := by
  refine ⟨?_, ?_, ?_, ?_⟩
  · exact (claim_C3_exception_normalization fmTriv
      (fnRaise (.permanentError "Invalid input" [])) ctxTriv _
      (Or.inr ⟨_, rfl, rfl⟩)).1
  · exact (claim_C3_exception_normalization fmTriv
      (fnRaise (.retryableError "Service unavailable" [])) ctxTriv _
      (Or.inr ⟨_, rfl, rfl⟩)).1
  · exact (claim_C3_exception_normalization fmTriv
      (fnRaise (.taskerError "domain fault" false [])) ctxTriv _
      (Or.inr ⟨_, rfl, rfl⟩)).1
  · exact (claim_C3_exception_normalization fmTriv
      (fnRaise (.otherExc "ValueError" "boom" "tb")) ctxTriv _
      (Or.inr ⟨_, rfl, rfl⟩)).1

/-- Counterexample for C5: the skip reason is not always preserved — the
source computes outcome.reason or "No branches", so Decision.skip("") with
an empty reason string normalizes to the default "No branches". -/
theorem claim_C5_counterexample :
    syncDecisionCall fmTriv fnSkipEmpty "skip_handler" "1.0.0" ctxTriv =
      .success
        (.vObj [("decision_point_outcome", .vObj [("type", .vStr "no_branches")]),
                ("reason", .vStr "No branches"),
                ("routing_context", .vObj [])])
        [("decision_handler", .vStr "skip_handler"),
         ("decision_version", .vStr "1.0.0")] ∧
    ("No branches" : String) ≠ "" := by
  exact ⟨rfl, by decide⟩

/-- C5 (amended): Decision.route(steps, ctx) normalizes to a Success whose
decision_point_outcome has type create_steps with step_names equal to steps
verbatim and routing_context equal to ctx; Decision.skip(reason, ctx)
normalizes to a no_branches outcome whose reason is preserved when
non-empty and replaced by "No branches" when empty. -/
theorem claim_C5_decision_normalization :
    (∀ fm fn hn hv ctx args steps rctx,
      injectArgs fm ctx = .ok args →
      fn args = .ok (.pDecision (Decision.route steps rctx)) →
      syncDecisionCall fm fn hn hv ctx =
        .success
          (.vObj [("decision_point_outcome",
                    .vObj [("type", .vStr "create_steps"),
                           ("step_names", .vList (steps.map .vStr))]),
                  ("routing_context", .vObj rctx)])
          [("decision_handler", .vStr hn), ("decision_version", .vStr hv)]) ∧
    (∀ fm fn hn hv ctx args reason rctx,
      injectArgs fm ctx = .ok args →
      fn args = .ok (.pDecision (Decision.skip reason rctx)) →
      syncDecisionCall fm fn hn hv ctx =
        .success
          (.vObj [("decision_point_outcome", .vObj [("type", .vStr "no_branches")]),
                  ("reason", .vStr (if reason = "" then "No branches" else reason)),
                  ("routing_context", .vObj rctx)])
          [("decision_handler", .vStr hn), ("decision_version", .vStr hv)]) := by
  constructor
  · intro fm fn hn hv ctx args steps rctx h1 h2
    simp [syncDecisionCall, h1, h2, except_bind_ok, Decision.route,
      DecisionPointOutcome.create_steps, decisionSuccess]
  · intro fm fn hn hv ctx args reason rctx h1 h2
    simp [syncDecisionCall, h1, h2, except_bind_ok, Decision.skip,
      DecisionPointOutcome.no_branches, skipBranches, pyOrStr]

/-- Witness for C5 at Decision.route(["a","b"], x=1) and
Decision.skip("no items"). -/
theorem claim_C5_witness :
    syncDecisionCall fmTriv fnRoute "route_order" "1.0.0" ctxTriv =
      .success
        (.vObj [("decision_point_outcome",
                  .vObj [("type", .vStr "create_steps"),
                         ("step_names", .vList [.vStr "a", .vStr "b"])]),
                ("routing_context", .vObj [("x", .vInt 1)])])
        [("decision_handler", .vStr "route_order"),
         ("decision_version", .vStr "1.0.0")] ∧
    syncDecisionCall fmTriv fnSkipNoItems "skip_handler" "1.0.0" ctxTriv =
      .success
        (.vObj [("decision_point_outcome", .vObj [("type", .vStr "no_branches")]),
                ("reason", .vStr "no items"),
                ("routing_context", .vObj [])])
        [("decision_handler", .vStr "skip_handler"),
         ("decision_version", .vStr "1.0.0")] := by
  constructor
  · exact claim_C5_decision_normalization.1 fmTriv fnRoute "route_order" "1.0.0"
      ctxTriv _ ["a", "b"] [("x", .vInt 1)] rfl rfl
  · exact claim_C5_decision_normalization.2 fmTriv fnSkipNoItems "skip_handler"
      "1.0.0" ctxTriv _ "no items" [] rfl rfl

/-- Counterexample for C7: a typed input model whose construction-time
validation rejects with a generic (non-Tasker) exception — the standard
Pydantic ValidationError path — yields a retryable HANDLER-kind Failure,
not the retryable=False PERMANENT failure the claim asserts for every
rejecting model. -/
theorem claim_C7_counterexample :
    syncFunctionalCall fmGenericReject fnNone ctxTriv =
      .failure "2 validation errors" .HANDLER_ERROR true
        [("exception_type", .vStr "ValidationError"), ("traceback", .vStr "tb")] ∧
    (syncFunctionalCall fmGenericReject fnNone ctxTriv).retryableFlag = some true ∧
    (syncFunctionalCall fmGenericReject fnNone ctxTriv).errorKind =
      some .HANDLER_ERROR ∧
    ErrorType.HANDLER_ERROR ≠ ErrorType.PERMANENT_ERROR ∧ true ≠ false := by
  exact ⟨rfl, rfl, rfl, by decide, by decide⟩

/-- C7 (amended): a typed-input-model construction-time validation rejection
is classified by _wrap_exception; when the model raises the rejection as a
PermanentError — as the repository's validated input models do — the
invocation returns a Failure with retryable=False and kind PERMANENT. -/
theorem claim_C7_model_validation_permanent :
    ∀ fm ctx mc (fn : Kwargs → Except Exc PyVal) m md,
      fm.input_model = some mc →
      mc.validate (mc.fields.map (fun f => (f, ctx.get_input f))) =
        .error (.permanentError m md) →
      syncFunctionalCall fm fn ctx = .failure m .PERMANENT_ERROR false md := by
  intro fm ctx mc fn m md h hv
  have herr : injectArgs fm ctx = .error (.permanentError m md) := by
    simp [injectArgs, h, hv, except_bind_err]
  simp [syncFunctionalCall, herr, except_bind_err]
  rfl

/-- Witness for C7 at the PermanentError-raising validated model with all
fields absent from the context. -/
theorem claim_C7_witness :
    syncFunctionalCall fmPermReject fnNone ctxTriv =
      .failure "Missing required fields: customer_id, refund_amount"
        .PERMANENT_ERROR false [] :=
  claim_C7_model_validation_permanent fmPermReject ctxTriv mcPermReject fnNone
    _ _ rfl rfl

/-- C8: with string-keyed argument specs (no input model), _inject_args
never raises, and a declared dependency or input key whose value is absent
from the context resolves the corresponding call argument to None. -/
theorem claim_C8_missing_dependency_tolerance :
    ∀ fm ctx, fm.input_model = none →
      ∃ args, injectArgs fm ctx = .ok args ∧
        (∀ p s, slookup fm.dep_map.reverse p = some s →
          alookup ctx.dependency_results s = none →
          p ∉ fm.input_keys → p ≠ "context" → p ≠ "_context" →
          args p = some (.val .vNull)) ∧
        (∀ k, k ∈ fm.input_keys →
          alookup ctx.input_data k = none →
          k ≠ "context" → k ≠ "_context" →
          args k = some (.val .vNull)) := by
  intro fm ctx h
  obtain ⟨args, heq, happly⟩ := injectArgs_none_apply fm ctx h
  refine ⟨args, heq, ?_, ?_⟩
  · intro p s hps hmiss hnk hc hu
    have hraw : ctx.get_dependency_result s = .vNull := by
      simp [StepContext.get_dependency_result, hmiss]
    rw [happly p]
    simp [hc, hu, hnk, hps]
    cases hms : slookup fm.dep_models p <;> simp [depArg, hraw, hms]
  · intro k hk hmiss hc hu
    have hval : ctx.get_input k = .vNull := by
      simp [StepContext.get_input, hmiss]
    rw [happly k]
    simp [hc, hu, hk, hval]

/-- Witness for C8: a handler declaring cart="validate_cart" and input key
payment_info against an empty context resolves both arguments to None
without raising. -/
theorem claim_C8_witness :
    injectionOk (injectArgs fmDepInput ctxTriv) = true ∧
    argsOf (injectArgs fmDepInput ctxTriv) "cart" = some (.val .vNull) ∧
    argsOf (injectArgs fmDepInput ctxTriv) "payment_info" = some (.val .vNull) := by
  obtain ⟨args, heq, hdep, hin⟩ :=
    claim_C8_missing_dependency_tolerance fmDepInput ctxTriv rfl
  rw [heq]
  refine ⟨rfl, ?_, ?_⟩
  · show args "cart" = _
    exact hdep "cart" "validate_cart" rfl rfl (by decide) (by decide) (by decide)
  · show args "payment_info" = _
    exact hin "payment_info" (by decide) rfl (by decide) (by decide)

/-- C9: when no dependency result carries the worker-template name prefix,
the aggregator returns a Success with the explicit zero-valued summary
(total_processed=0, running_total=0, scenario "no_batches"), never a
Failure. -/
theorem claim_C9_no_batches_aggregation :
    ∀ ctx : StepContext,
      (∀ kv ∈ ctx.dependency_results,
        kv.1.startsWith checkpointYieldWorkerPfx = false) →
      aggregatorCall ctx =
        .success
          (.vObj [("total_processed", .vInt 0), ("running_total", .vInt 0),
                  ("test_passed", .vBool true), ("scenario", .vStr "no_batches")])
          [] ∧
      (aggregatorCall ctx).is_success = true := by
  intro ctx h
  have hfilter : ctx.dependency_results.filter
      (fun kv => kv.1.startsWith checkpointYieldWorkerPfx) = [] := by
    rw [List.filter_eq_nil_iff]
    intro a ha
    simp [h a ha]
  have e1 : aggregatorCall ctx =
      .success
        (.vObj [("total_processed", .vInt 0), ("running_total", .vInt 0),
                ("test_passed", .vBool true), ("scenario", .vStr "no_batches")])
        [] := by
    simp [aggregatorCall, detectAggregationScenario, hfilter,
      noBatchesAggregationResult]
  exact ⟨e1, by rw [e1]; rfl⟩

set_option maxRecDepth 4000 in
/-- Witness for C9: a context whose only dependency result is the analyzer
step (no worker-prefixed result). -/
theorem claim_C9_witness :
    aggregatorCall ctxAnalyzerOnly =
      .success
        (.vObj [("total_processed", .vInt 0), ("running_total", .vInt 0),
                ("test_passed", .vBool true), ("scenario", .vStr "no_batches")])
        [] ∧
    (aggregatorCall ctxAnalyzerOnly).is_success = true := by
  refine claim_C9_no_batches_aggregation ctxAnalyzerOnly ?_
  intro kv hkv
  simp only [ctxAnalyzerOnly, List.mem_singleton] at hkv
  subst hkv
  rfl

/-- C10: a (step_name, ModelClass) dependency constructs the model only
when the raw dependency result is a dict, and then via model_construct —
the conclusion holds for every validate function of the class, i.e. field
validation is bypassed entirely; a non-dict raw result (None for an absent
dependency included) is injected unchanged and never raises. -/
theorem claim_C10_dep_model_construct :
    ∀ fm ctx p s mc,
      fm.input_model = none →
      slookup fm.dep_map.reverse p = some s →
      slookup fm.dep_models p = some mc →
      p ∉ fm.input_keys → p ≠ "context" → p ≠ "_context" →
      ∃ args, injectArgs fm ctx = .ok args ∧
        (∀ fields, ctx.get_dependency_result s = .vObj fields →
          args p = some (.modelInst mc.name fields)) ∧
        ((∀ fields, ctx.get_dependency_result s ≠ .vObj fields) →
          args p = some (.val (ctx.get_dependency_result s))) := by
  intro fm ctx p s mc h hps hms hnk hc hu
  obtain ⟨args, heq, happly⟩ := injectArgs_none_apply fm ctx h
  refine ⟨args, heq, ?_, ?_⟩
  · intro fields hraw
    rw [happly p]
    simp [hc, hu, hnk, hps, depArg, hms, hraw]
  · intro hraw
    rw [happly p]
    simp [hc, hu, hnk, hps]
    cases hv : ctx.get_dependency_result s with
    | vObj fields => exact absurd hv (hraw fields)
    | vNull => simp [depArg, hms, hv]
    | vBool b => simp [depArg, hms, hv]
    | vInt n => simp [depArg, hms, hv]
    | vStr s2 => simp [depArg, hms, hv]
    | vList xs => simp [depArg, hms, hv]

/-- Witness for C10: the typed approval dependency constructs the model from
a dict result and passes a non-dict result through unchanged. -/
theorem claim_C10_witness :
    argsOf (injectArgs fmTypedDep ctxApprovalDict) "approval" =
      some (.modelInst "ApprovalResult"
        [("approved", .vBool true), ("approval_id", .vStr "APR-001")]) ∧
    argsOf (injectArgs fmTypedDep ctxApprovalStr) "approval" =
      some (.val (.vStr "oops")) := by
  obtain ⟨args1, heq1, hdict1, _⟩ :=
    claim_C10_dep_model_construct fmTypedDep ctxApprovalDict "approval"
      "get_approval" mcApproval rfl rfl rfl (by decide) (by decide) (by decide)
  obtain ⟨args2, heq2, _, hval2⟩ :=
    claim_C10_dep_model_construct fmTypedDep ctxApprovalStr "approval"
      "get_approval" mcApproval rfl rfl rfl (by decide) (by decide) (by decide)
  constructor
  · rw [heq1]
    exact hdict1 _ rfl
  · rw [heq2]
    exact hval2 (fun fields hx => by cases hx)

lemma mul_lt_total_of_lt_numBatches (T B i : Nat) (hB : 1 ≤ B)
    (hi : i < numBatches T B) : i * B < T := by
  by_contra hle
  push_neg at hle
  have key : (i * B + (B - 1)) / B = i := by
    calc (i * B + (B - 1)) / B = (B - 1 + B * i) / B := by
          rw [Nat.add_comm, Nat.mul_comm]
    _ = (B - 1) / B + i := Nat.add_mul_div_left _ _ (by omega)
    _ = i := by rw [Nat.div_eq_of_lt (by omega)]; omega
  have h1 : numBatches T B ≤ i := by
    unfold numBatches
    calc (T + B - 1) / B ≤ (i * B + (B - 1)) / B :=
          Nat.div_le_div_right (by omega)
    _ = i := key
  omega

lemma div_lt_numBatches (T B j : Nat) (hB : 1 ≤ B) (hj : j < T) :
    j / B < numBatches T B := by
  have h1 : j / B ≤ (T - 1) / B := Nat.div_le_div_right (by omega)
  have h2 : numBatches T B = (T - 1) / B + 1 := by
    unfold numBatches
    have he : T + B - 1 = (T - 1) + B := by omega
    rw [he, Nat.add_div_right _ (by omega)]
  omega

/-- C1: for total_items = T >= 0 and batch_size = B >= 1, the cursor ranges
of the batch-analyzer Success outcome are a list of nonempty half-open
ranges, pairwise disjoint, ordered by start, contiguous, whose union is
exactly 0 <= j < T; the analyzer call embeds exactly this list; and T=250,
B=100 gives ranges (0,100), (100,200), (200,250) with worker_count 3. -/
theorem claim_C1_partition_completeness :
    ∀ T B : Nat, 1 ≤ B →
      (∀ r ∈ cursorConfigs T B, r.1 < r.2) ∧
      List.Pairwise (fun r s : Nat × Nat => r.2 ≤ s.1) (cursorConfigs T B) ∧
      List.Pairwise (fun r s : Nat × Nat => r.1 < s.1) (cursorConfigs T B) ∧
      List.Chain' (fun r s : Nat × Nat => r.2 = s.1) (cursorConfigs T B) ∧
      (∀ j, j < T ↔ ∃ r ∈ cursorConfigs T B, r.1 ≤ j ∧ j < r.2) ∧
      (∀ fm fn ctx wt (c : BatchConfig) args, injectArgs fm ctx = .ok args →
        fn args = .ok (.pBatchConfig c) →
        syncBatchAnalyzerCall fm fn wt ctx =
          batchAnalyzerSuccess wt c.total_items c.batch_size c.metadata) ∧
      cursorConfigs 250 100 = [(0, 100), (100, 200), (200, 250)] ∧
      numBatches 250 100 = 3 := by
  intro T B hB
  refine ⟨?_, ?_, ?_, ?_, ?_, ?_, by decide, by decide⟩
  · intro r hr
    rw [cursorConfigs, List.mem_map] at hr
    obtain ⟨i, hi, rfl⟩ := hr
    rw [List.mem_range] at hi
    have h1 : i * B < T := mul_lt_total_of_lt_numBatches T B i hB hi
    have h2 : i * B < (i + 1) * B :=
      (Nat.mul_lt_mul_right (show 0 < B by omega)).mpr (Nat.lt_succ_self i)
    exact lt_min h2 h1
  · rw [cursorConfigs, List.pairwise_map]
    refine (List.pairwise_lt_range _).imp ?_
    intro i j hij
    have h1 : (i + 1) * B ≤ j * B := Nat.mul_le_mul_right B (by omega)
    have h2 : min ((i + 1) * B) T ≤ (i + 1) * B := min_le_left _ _
    omega
  · rw [cursorConfigs, List.pairwise_map]
    refine (List.pairwise_lt_range _).imp ?_
    intro i j hij
    exact (Nat.mul_lt_mul_right (show 0 < B by omega)).mpr hij
  · rw [cursorConfigs]
    rw [List.chain'_map]
    cases hn : numBatches T B with
    | zero => simp
    | succ n =>
        rw [List.chain'_range_succ]
        intro i hi
        have h1 : (i + 1) * B < T := by
          apply mul_lt_total_of_lt_numBatches T B _ hB
          omega
        simp [Nat.min_eq_left (le_of_lt h1)]
  · intro j
    constructor
    · intro hj
      refine ⟨(j / B * B, min ((j / B + 1) * B) T), ?_, ?_, ?_⟩
      · rw [cursorConfigs, List.mem_map]
        exact ⟨j / B, List.mem_range.mpr (div_lt_numBatches T B j hB hj), rfl⟩
      · exact Nat.div_mul_le_self j B
      · have h1 : j < (j / B + 1) * B := by
          rw [← Nat.div_lt_iff_lt_mul (by omega)]
          omega
        exact lt_min h1 hj
    · intro ⟨r, hr, h1, h2⟩
      rw [cursorConfigs, List.mem_map] at hr
      obtain ⟨i, hi, rfl⟩ := hr
      have := min_le_right ((i + 1) * B) T
      omega
  · intro fm fn ctx wt c args h1 h2
    simp [syncBatchAnalyzerCall, h1, h2, except_bind_ok]

/-- Witness for C1 at the analyzer returning BatchConfig(250, 100): the call
produces the batch-analyzer Success embedding cursorConfigs 250 100, which
equals the three expected ranges with worker_count 3. -/
theorem claim_C1_witness :
    syncBatchAnalyzerCall fmTriv fnBatch250 "process_batch" ctxTriv =
      batchAnalyzerSuccess "process_batch" 250 100 [] ∧
    cursorConfigs 250 100 = [(0, 100), (100, 200), (200, 250)] ∧
    numBatches 250 100 = 3 := by
  have h := claim_C1_partition_completeness 250 100 (by decide)
  exact ⟨h.2.2.2.2.2.1 fmTriv fnBatch250 ctxTriv "process_batch" ⟨250, 100, []⟩
      _ rfl rfl,
    h.2.2.2.2.2.2.1, h.2.2.2.2.2.2.2⟩

lemma foldRange_add (c a b : Nat) (acc : Accumulated) :
    foldRange c (a + b) acc = foldRange (c + a) b (foldRange c a acc) := by
  induction a generalizing c acc with
  | zero => simp [foldRange]
  | succ a ih =>
      have h1 : a + 1 + b = (a + b) + 1 := by omega
      have h2 : c + (a + 1) = (c + 1) + a := by omega
      rw [h1]
      show foldRange (c + 1) (a + b) (stepItem c acc) = _
      rw [ih, h2]
      rfl

/-- Characterization of the worker loop when the failure-injection condition
never fires (no fail_after configured, or the attempt does not match): from
a mid-loop state it either yields the next checkpoint after exactly the
remaining chunk allowance, or runs to completion, folding items exactly
once each. -/
lemma workerLoop_char_no_fail (endC icp : Nat) (fa : Option Nat) (foa : Nat)
    (perm : Bool) (att : Nat)
    (hnf : ∀ tp, failDue fa tp att foa = false) :
    ∀ d cursor acc tp chunk, endC - cursor = d → cursor ≤ endC → chunk < icp →
      workerLoop endC icp fa foa perm att cursor acc tp chunk =
        if cursor + (icp - chunk) < endC then
          .checkpoint (cursor + (icp - chunk)) (tp + (icp - chunk))
            (foldRange cursor (icp - chunk) acc)
        else
          .success (tp + (endC - cursor)) (tp + (endC - cursor)) 0
            ⟨foldRange cursor (endC - cursor) acc, endC,
             (tp + (endC - cursor)) / icp⟩ := by
  intro d
  induction d with
  | zero =>
      intro cursor acc tp chunk hd hle hchunk
      have hce : cursor = endC := by omega
      subst hce
      rw [workerLoop]
      have hlt : ¬ cursor < cursor := by omega
      have hout : ¬ (cursor + (icp - chunk) < cursor) := by omega
      simp [hlt, hout, foldRange, Nat.sub_self]
  | succ d ih =>
      intro cursor acc tp chunk hd hle hchunk
      have hlt : cursor < endC := by omega
      rw [workerLoop]
      rw [if_pos hlt, hnf tp]
      simp only [Bool.false_eq_true, if_false]
      by_cases hck : icp ≤ chunk + 1 ∧ cursor + 1 < endC
      · rw [if_pos hck]
        have h1 : icp - chunk = 1 := by omega
        have hout : cursor + (icp - chunk) < endC := by omega
        rw [if_pos hout, h1]
        rfl
      · rw [if_neg hck]
        by_cases hc2 : chunk + 1 < icp
        · rw [ih (cursor + 1) (stepItem cursor acc) (tp + 1) (chunk + 1)
            (by omega) (by omega) hc2]
          have e1 : cursor + 1 + (icp - (chunk + 1)) = cursor + (icp - chunk) := by
            omega
          have e2 : tp + 1 + (icp - (chunk + 1)) = tp + (icp - chunk) := by omega
          have e3 : foldRange (cursor + 1) (icp - (chunk + 1)) (stepItem cursor acc) =
              foldRange cursor (icp - chunk) acc := by
            have h4 : icp - chunk = 1 + (icp - (chunk + 1)) := by omega
            rw [h4, foldRange_add]
            rfl
          have e4 : tp + 1 + (endC - (cursor + 1)) = tp + (endC - cursor) := by
            omega
          have e5 : foldRange (cursor + 1) (endC - (cursor + 1)) (stepItem cursor acc) =
              foldRange cursor (endC - cursor) acc := by
            have h4 : endC - cursor = 1 + (endC - (cursor + 1)) := by omega
            rw [h4, foldRange_add]
            rfl
          rw [e1, e2, e3, e4, e5]
        · have hicpe : icp = chunk + 1 := by omega
          have hce : cursor + 1 = endC := by omega
          rw [workerLoop]
          have hlt2 : ¬ cursor + 1 < endC := by omega
          rw [if_neg hlt2]
          have hout : ¬ (cursor + (icp - chunk) < endC) := by omega
          rw [if_neg hout]
          have e4 : endC - cursor = 1 := by omega
          rw [e4]
          have e5 : foldRange cursor 1 acc = stepItem cursor acc := rfl
          rw [e5, hce]

/-- Characterization of the worker loop when failure injection is armed
(fail_after_items = F and the current attempt matches): from a mid-loop
state with at most F items processed, the first of three events decides the
invocation — the failure fires at the top of the iteration where
total_processed reaches F (before the item is folded), the checkpoint fires
at the end of the iteration exhausting the chunk allowance, or the range
runs out. -/
lemma workerLoop_char_fail (endC icp F foa : Nat) (perm : Bool) :
    ∀ d cursor acc tp chunk, endC - cursor = d → cursor ≤ endC → chunk < icp →
      tp ≤ F →
      workerLoop endC icp (some F) foa perm foa cursor acc tp chunk =
        if F - tp < endC - cursor ∧ F - tp < icp - chunk then
          injectFailureResult F (cursor + (F - tp)) perm
        else if icp - chunk < endC - cursor ∧ icp - chunk ≤ F - tp then
          .checkpoint (cursor + (icp - chunk)) (tp + (icp - chunk))
            (foldRange cursor (icp - chunk) acc)
        else
          .success (tp + (endC - cursor)) (tp + (endC - cursor)) 0
            ⟨foldRange cursor (endC - cursor) acc, endC,
             (tp + (endC - cursor)) / icp⟩ := by
  intro d
  induction d with
  | zero =>
      intro cursor acc tp chunk hd hle hchunk htp
      have hce : cursor = endC := by omega
      subst hce
      rw [workerLoop]
      have hlt : ¬ cursor < cursor := by omega
      have h1 : ¬ (F - tp < cursor - cursor ∧ F - tp < icp - chunk) := by omega
      have h2 : ¬ (icp - chunk < cursor - cursor ∧ icp - chunk ≤ F - tp) := by
        omega
      simp [hlt, h1, h2, foldRange, Nat.sub_self]
  | succ d ih =>
      intro cursor acc tp chunk hd hle hchunk htp
      have hlt : cursor < endC := by omega
      rw [workerLoop]
      rw [if_pos hlt]
      by_cases hF : F ≤ tp
      · have htpe : tp = F := by omega
        have hdue : failDue (some F) tp foa foa = true := by
          simp [failDue, hF]
        rw [hdue]
        simp only [if_true]
        have h1 : F - tp < endC - cursor ∧ F - tp < icp - chunk := by omega
        rw [if_pos h1]
        have h2 : F - tp = 0 := by omega
        rw [h2, htpe]
        rfl
      · have hdue : failDue (some F) tp foa foa = false := by
          simp [failDue, hF]
        rw [hdue]
        simp only [Bool.false_eq_true, if_false]
        by_cases hck : icp ≤ chunk + 1 ∧ cursor + 1 < endC
        · rw [if_pos hck]
          have h1 : icp - chunk = 1 := by omega
          have hno : ¬ (F - tp < endC - cursor ∧ F - tp < icp - chunk) := by
            omega
          rw [if_neg hno]
          have h2 : icp - chunk < endC - cursor ∧ icp - chunk ≤ F - tp := by
            omega
          rw [if_pos h2, h1]
          rfl
        · rw [if_neg hck]
          by_cases hc2 : chunk + 1 < icp
          · rw [ih (cursor + 1) (stepItem cursor acc) (tp + 1) (chunk + 1)
              (by omega) (by omega) hc2 (by omega)]
            have c1 : (F - (tp + 1) < endC - (cursor + 1) ∧
                F - (tp + 1) < icp - (chunk + 1)) ↔
                (F - tp < endC - cursor ∧ F - tp < icp - chunk) := by omega
            have c2 : (icp - (chunk + 1) < endC - (cursor + 1) ∧
                icp - (chunk + 1) ≤ F - (tp + 1)) ↔
                (icp - chunk < endC - cursor ∧ icp - chunk ≤ F - tp) := by omega
            have e1 : cursor + 1 + (F - (tp + 1)) = cursor + (F - tp) := by omega
            have e2 : cursor + 1 + (icp - (chunk + 1)) = cursor + (icp - chunk) := by
              omega
            have e3 : tp + 1 + (icp - (chunk + 1)) = tp + (icp - chunk) := by omega
            have e4 : foldRange (cursor + 1) (icp - (chunk + 1)) (stepItem cursor acc) =
                foldRange cursor (icp - chunk) acc := by
              have h4 : icp - chunk = 1 + (icp - (chunk + 1)) := by omega
              rw [h4, foldRange_add]
              rfl
            have e5 : tp + 1 + (endC - (cursor + 1)) = tp + (endC - cursor) := by
              omega
            have e6 : foldRange (cursor + 1) (endC - (cursor + 1)) (stepItem cursor acc) =
                foldRange cursor (endC - cursor) acc := by
              have h4 : endC - cursor = 1 + (endC - (cursor + 1)) := by omega
              rw [h4, foldRange_add]
              rfl
            rw [e1, e2, e3, e4, e5, e6]
            by_cases b1 : F - tp < endC - cursor ∧ F - tp < icp - chunk
            · rw [if_pos (c1.mpr b1), if_pos b1]
            · rw [if_neg (fun hx => b1 (c1.mp hx)), if_neg b1]
              by_cases b2 : icp - chunk < endC - cursor ∧ icp - chunk ≤ F - tp
              · rw [if_pos (c2.mpr b2), if_pos b2]
              · rw [if_neg (fun hx => b2 (c2.mp hx)), if_neg b2]
          · have hicpe : icp = chunk + 1 := by omega
            have hce : cursor + 1 = endC := by omega
            rw [workerLoop]
            have hlt2 : ¬ cursor + 1 < endC := by omega
            rw [if_neg hlt2]
            have h1 : ¬ (F - tp < endC - cursor ∧ F - tp < icp - chunk) := by
              omega
            rw [if_neg h1]
            have h2 : ¬ (icp - chunk < endC - cursor ∧ icp - chunk ≤ F - tp) := by
              omega
            rw [if_neg h2]
            have e4 : endC - cursor = 1 := by omega
            rw [e4]
            have e5 : foldRange cursor 1 acc = stepItem cursor acc := rfl
            rw [e5, hce]

/-- Resuming from a snapshot whose cursor is nonzero (or equal to the range
start, where the Python or-fallback is the identity) enters the loop at the
snapshot state with a fresh chunk counter. -/
lemma workerInvoke_resume (startC endC icp : Nat) (fa : Option Nat)
    (foa : Nat) (perm : Bool) (rc : Nat) (c : CheckpointState)
    (hg : c.cursor = 0 → startC = 0) :
    workerInvoke startC endC icp fa foa perm rc (some c) =
      workerLoop endC icp fa foa perm (rc + 1) c.cursor c.accumulated_results
        c.items_processed 0 := by
  unfold workerInvoke
  by_cases h0 : c.cursor = 0
  · simp [h0, hg h0]
  · simp [h0]

/-- A fresh invocation behaves like resuming from the trivial snapshot at
the range start (the or-fallback coincides there even for a zero start). -/
lemma workerInvoke_none_eq_resume (startC endC icp : Nat) (fa : Option Nat)
    (foa : Nat) (perm : Bool) (rc : Nat) :
    workerInvoke startC endC icp fa foa perm rc none =
      workerInvoke startC endC icp fa foa perm rc (some ⟨startC, 0, ⟨0, []⟩⟩) := by
  unfold workerInvoke
  by_cases h : startC = 0
  · simp [h]
  · simp [h]

/-- The invocation chain from a fresh start equals the chain from the
trivial snapshot. -/
lemma chainExec_none_eq_resume (fuel startC endC icp : Nat) (fa : Option Nat)
    (foa : Nat) (perm : Bool) (rc : Nat) :
    chainExec fuel startC endC icp fa foa perm rc none =
      chainExec fuel startC endC icp fa foa perm rc
        (some ⟨startC, 0, ⟨0, []⟩⟩) := by
  cases fuel with
  | zero =>
      show (_, workerInvoke startC endC icp fa foa perm rc none) = _
      rw [workerInvoke_none_eq_resume]
      rfl
  | succ f =>
      show (match workerInvoke startC endC icp fa foa perm rc none with
        | .checkpoint c tp acc => _
        | r => _) = _
      rw [workerInvoke_none_eq_resume]
      rfl

/-- Chain characterization with no failure injection: from any resumable
snapshot the chain completes, processing each remaining item exactly once;
fuel endC - cursor suffices since every checkpoint advances the cursor. -/
lemma chainExec_char_no_fail (startC endC icp : Nat) (fa : Option Nat)
    (foa : Nat) (perm : Bool) (rc : Nat) (hicp : 1 ≤ icp)
    (hnf : ∀ tp, failDue fa tp (rc + 1) foa = false) :
    ∀ fuel cursor tp acc, (cursor = 0 → startC = 0) → cursor ≤ endC →
      endC - cursor ≤ fuel →
      ∃ tr, chainExec fuel startC endC icp fa foa perm rc
          (some ⟨cursor, tp, acc⟩) =
        (tr, .success (tp + (endC - cursor)) (tp + (endC - cursor)) 0
          ⟨foldRange cursor (endC - cursor) acc, endC,
           (tp + (endC - cursor)) / icp⟩) := by
  intro fuel
  induction fuel with
  | zero =>
      intro cursor tp acc hg hle hfuel
      have hce : cursor = endC := by omega
      refine ⟨[], ?_⟩
      show (_, workerInvoke startC endC icp fa foa perm rc
        (some ⟨cursor, tp, acc⟩)) = _
      rw [workerInvoke_resume startC endC icp fa foa perm rc _ hg]
      rw [workerLoop_char_no_fail endC icp fa foa perm (rc + 1) hnf
        (endC - cursor) cursor acc tp 0 rfl hle (by omega)]
      have hout : ¬ (cursor + (icp - 0) < endC) := by omega
      rw [if_neg hout]
  | succ f ih =>
      intro cursor tp acc hg hle hfuel
      have hinv : workerInvoke startC endC icp fa foa perm rc
          (some ⟨cursor, tp, acc⟩) =
          if cursor + (icp - 0) < endC then
            .checkpoint (cursor + (icp - 0)) (tp + (icp - 0))
              (foldRange cursor (icp - 0) acc)
          else
            .success (tp + (endC - cursor)) (tp + (endC - cursor)) 0
              ⟨foldRange cursor (endC - cursor) acc, endC,
               (tp + (endC - cursor)) / icp⟩ := by
        rw [workerInvoke_resume startC endC icp fa foa perm rc _ hg]
        exact workerLoop_char_no_fail endC icp fa foa perm (rc + 1) hnf
          (endC - cursor) cursor acc tp 0 rfl hle (by omega)
      by_cases hck : cursor + (icp - 0) < endC
      · rw [if_pos hck] at hinv
        obtain ⟨tr2, heq2⟩ := ih (cursor + (icp - 0)) (tp + (icp - 0))
          (foldRange cursor (icp - 0) acc) (by omega) (by omega) (by omega)
        refine ⟨⟨cursor + (icp - 0), tp + (icp - 0),
          foldRange cursor (icp - 0) acc⟩ :: tr2, ?_⟩
        show (match workerInvoke startC endC icp fa foa perm rc
            (some ⟨cursor, tp, acc⟩) with
          | .checkpoint c tp acc => _
          | r => _) = _
        rw [hinv]
        simp only []
        rw [heq2]
        have e1 : tp + (icp - 0) + (endC - (cursor + (icp - 0))) =
            tp + (endC - cursor) := by omega
        have e2 : foldRange (cursor + (icp - 0)) (endC - (cursor + (icp - 0)))
            (foldRange cursor (icp - 0) acc) =
            foldRange cursor (endC - cursor) acc := by
          have h4 : endC - cursor = (icp - 0) + (endC - (cursor + (icp - 0))) := by
            omega
          rw [h4, foldRange_add]
        rw [e1, e2]
      · rw [if_neg hck] at hinv
        refine ⟨[], ?_⟩
        show (match workerInvoke startC endC icp fa foa perm rc
            (some ⟨cursor, tp, acc⟩) with
          | .checkpoint c tp acc => _
          | r => _) = _
        rw [hinv]

/-- Chain characterization with failure injection armed for this attempt:
the chain fails — with exactly F items processed overall and the cursor F
items past its overall start — precisely when more than F - tp items remain,
and completes normally otherwise; every committed checkpoint carries at most
F processed items and the exact fold of what it processed. -/
lemma chainExec_char_fail (startC endC icp F foa : Nat) (perm : Bool)
    (rc : Nat) (hicp : 1 ≤ icp) (hatt : rc + 1 = foa) :
    ∀ fuel cursor tp acc, (cursor = 0 → startC = 0) → cursor ≤ endC →
      endC - cursor ≤ fuel → tp ≤ F →
      ∃ tr, chainExec fuel startC endC icp (some F) foa perm rc
          (some ⟨cursor, tp, acc⟩) =
        (tr,
          if F < tp + (endC - cursor) then
            injectFailureResult F (cursor + (F - tp)) perm
          else
            .success (tp + (endC - cursor)) (tp + (endC - cursor)) 0
              ⟨foldRange cursor (endC - cursor) acc, endC,
               (tp + (endC - cursor)) / icp⟩) ∧
        ∀ s ∈ tr, tp ≤ s.items_processed ∧ s.items_processed ≤ F ∧
          s.cursor = cursor + (s.items_processed - tp) ∧
          s.accumulated_results = foldRange cursor (s.items_processed - tp) acc := by
  intro fuel
  induction fuel with
  | zero =>
      intro cursor tp acc hg hle hfuel htp
      have hce : cursor = endC := by omega
      refine ⟨[], ?_, by simp⟩
      show (_, workerInvoke startC endC icp (some F) foa perm rc
        (some ⟨cursor, tp, acc⟩)) = _
      rw [workerInvoke_resume startC endC icp (some F) foa perm rc _ hg, hatt]
      rw [workerLoop_char_fail endC icp F foa perm (endC - cursor) cursor acc
        tp 0 rfl hle (by omega) htp]
      have h1 : ¬ (F - tp < endC - cursor ∧ F - tp < icp - 0) := by omega
      have h2 : ¬ (icp - 0 < endC - cursor ∧ icp - 0 ≤ F - tp) := by omega
      rw [if_neg h1, if_neg h2]
      have h3 : ¬ (F < tp + (endC - cursor)) := by omega
      rw [if_neg h3]
  | succ f ih =>
      intro cursor tp acc hg hle hfuel htp
      have hinv : workerInvoke startC endC icp (some F) foa perm rc
          (some ⟨cursor, tp, acc⟩) =
          if F - tp < endC - cursor ∧ F - tp < icp - 0 then
            injectFailureResult F (cursor + (F - tp)) perm
          else if icp - 0 < endC - cursor ∧ icp - 0 ≤ F - tp then
            .checkpoint (cursor + (icp - 0)) (tp + (icp - 0))
              (foldRange cursor (icp - 0) acc)
          else
            .success (tp + (endC - cursor)) (tp + (endC - cursor)) 0
              ⟨foldRange cursor (endC - cursor) acc, endC,
               (tp + (endC - cursor)) / icp⟩ := by
        rw [workerInvoke_resume startC endC icp (some F) foa perm rc _ hg, hatt]
        exact workerLoop_char_fail endC icp F foa perm (endC - cursor) cursor
          acc tp 0 rfl hle (by omega) htp
      by_cases h1 : F - tp < endC - cursor ∧ F - tp < icp - 0
      · rw [if_pos h1] at hinv
        refine ⟨[], ?_, by simp⟩
        show (match workerInvoke startC endC icp (some F) foa perm rc
            (some ⟨cursor, tp, acc⟩) with
          | .checkpoint c tp acc => _
          | r => _) = _
        rw [hinv]
        have h3 : F < tp + (endC - cursor) := by omega
        rw [if_pos h3]
        cases perm <;> rfl
      · rw [if_neg h1] at hinv
        by_cases h2 : icp - 0 < endC - cursor ∧ icp - 0 ≤ F - tp
        · rw [if_pos h2] at hinv
          obtain ⟨tr2, heq2, hmem2⟩ := ih (cursor + (icp - 0)) (tp + (icp - 0))
            (foldRange cursor (icp - 0) acc) (by omega) (by omega) (by omega)
            (by omega)
          refine ⟨⟨cursor + (icp - 0), tp + (icp - 0),
            foldRange cursor (icp - 0) acc⟩ :: tr2, ?_, ?_⟩
          · show (match workerInvoke startC endC icp (some F) foa perm rc
                (some ⟨cursor, tp, acc⟩) with
              | .checkpoint c tp acc => _
              | r => _) = _
            rw [hinv]
            simp only []
            rw [heq2]
            have c1 : (F < tp + (icp - 0) + (endC - (cursor + (icp - 0)))) ↔
                (F < tp + (endC - cursor)) := by omega
            have e1 : cursor + (icp - 0) + (F - (tp + (icp - 0))) =
                cursor + (F - tp) := by omega
            have e2 : tp + (icp - 0) + (endC - (cursor + (icp - 0))) =
                tp + (endC - cursor) := by omega
            have e3 : foldRange (cursor + (icp - 0))
                (endC - (cursor + (icp - 0))) (foldRange cursor (icp - 0) acc) =
                foldRange cursor (endC - cursor) acc := by
              have h4 : endC - cursor =
                  (icp - 0) + (endC - (cursor + (icp - 0))) := by omega
              rw [h4, foldRange_add]
            by_cases b1 : F < tp + (endC - cursor)
            · rw [if_pos (c1.mpr b1), if_pos b1, e1]
            · rw [if_neg (fun hx => b1 (c1.mp hx)), if_neg b1, e2, e3]
          · intro s hs
            rcases List.mem_cons.mp hs with hs0 | hs2
            · subst hs0
              dsimp only
              have hxx : tp + (icp - 0) - tp = icp - 0 := by omega
              exact ⟨by omega, by omega, by omega, by rw [hxx]⟩
            · obtain ⟨m1, m2, m3, m4⟩ := hmem2 s hs2
              refine ⟨by omega, m2, by omega, ?_⟩
              rw [m4]
              have h4 : s.items_processed - tp =
                  (icp - 0) + (s.items_processed - (tp + (icp - 0))) := by omega
              rw [h4, foldRange_add]
        · rw [if_neg h2] at hinv
          refine ⟨[], ?_, by simp⟩
          show (match workerInvoke startC endC icp (some F) foa perm rc
              (some ⟨cursor, tp, acc⟩) with
            | .checkpoint c tp acc => _
            | r => _) = _
          rw [hinv]
          have h3 : ¬ (F < tp + (endC - cursor)) := by omega
          rw [if_neg h3]

lemma chainExec_succ_checkpoint (fuel startC endC icp : Nat) (fa : Option Nat)
    (foa : Nat) (perm : Bool) (rc : Nat) (ck : Option CheckpointState)
    (c tp : Nat) (acc : Accumulated)
    (h : workerInvoke startC endC icp fa foa perm rc ck =
      .checkpoint c tp acc) :
    chainExec (fuel + 1) startC endC icp fa foa perm rc ck =
      ((⟨c, tp, acc⟩ : CheckpointState) ::
        (chainExec fuel startC endC icp fa foa perm rc (some ⟨c, tp, acc⟩)).1,
       (chainExec fuel startC endC icp fa foa perm rc (some ⟨c, tp, acc⟩)).2) := by
  show (match workerInvoke startC endC icp fa foa perm rc ck with
    | .checkpoint c tp acc => _
    | r => _) = _
  rw [h]

lemma chainExec_succ_success (fuel startC endC icp : Nat) (fa : Option Nat)
    (foa : Nat) (perm : Bool) (rc : Nat) (ck : Option CheckpointState)
    (a b c : Nat) (m : BatchSuccessMeta)
    (h : workerInvoke startC endC icp fa foa perm rc ck = .success a b c m) :
    chainExec (fuel + 1) startC endC icp fa foa perm rc ck =
      ([], .success a b c m) := by
  show (match workerInvoke startC endC icp fa foa perm rc ck with
    | .checkpoint c tp acc => _
    | r => _) = _
  rw [h]

/-- The spec's running example of checkpoint transparency, computed
concretely: interval 25 over the range 0..60 yields checkpoints at cursors
25 and 50 (with 25 and 50 items processed) and completes at 60 with the
full 60-item fold. -/
lemma chainExec_example_25_60 :
    chainExec 60 0 60 25 none 1 false 0 none =
      ([⟨25, 25, foldRange 0 25 ⟨0, []⟩⟩, ⟨50, 50, foldRange 0 50 ⟨0, []⟩⟩],
       .success 60 60 0 ⟨foldRange 0 60 ⟨0, []⟩, 60, 2⟩) := by
  have hnf : ∀ tp, failDue none tp 1 1 = false := fun _ => rfl
  have s1 : workerInvoke 0 60 25 none 1 false 0 none =
      .checkpoint 25 25 (foldRange 0 25 ⟨0, []⟩) := by
    show workerLoop 60 25 none 1 false 1 0 ⟨0, []⟩ 0 0 = _
    rw [workerLoop_char_no_fail 60 25 none 1 false 1 hnf 60 0 ⟨0, []⟩ 0 0 rfl
      (by omega) (by omega)]
    norm_num
  have s2 : workerInvoke 0 60 25 none 1 false 0
      (some ⟨25, 25, foldRange 0 25 ⟨0, []⟩⟩) =
      .checkpoint 50 50 (foldRange 0 50 ⟨0, []⟩) := by
    rw [workerInvoke_resume 0 60 25 none 1 false 0 _ (fun _ => rfl)]
    rw [workerLoop_char_no_fail 60 25 none 1 false 1 hnf 35 25
      (foldRange 0 25 ⟨0, []⟩) 25 0 rfl (by omega) (by omega)]
    have e1 : foldRange 25 25 (foldRange 0 25 ⟨0, []⟩) =
        foldRange 0 50 ⟨0, []⟩ := by
      have := foldRange_add 0 25 25 ⟨0, []⟩
      simp at this
      rw [← this]
    norm_num [e1]
  have s3 : workerInvoke 0 60 25 none 1 false 0
      (some ⟨50, 50, foldRange 0 50 ⟨0, []⟩⟩) =
      .success 60 60 0 ⟨foldRange 0 60 ⟨0, []⟩, 60, 2⟩ := by
    rw [workerInvoke_resume 0 60 25 none 1 false 0 _ (fun _ => rfl)]
    rw [workerLoop_char_no_fail 60 25 none 1 false 1 hnf 10 50
      (foldRange 0 50 ⟨0, []⟩) 50 0 rfl (by omega) (by omega)]
    have e1 : foldRange 50 10 (foldRange 0 50 ⟨0, []⟩) =
        foldRange 0 60 ⟨0, []⟩ := by
      have := foldRange_add 0 50 10 ⟨0, []⟩
      simp at this
      rw [← this]
    norm_num [e1]
  have c1 := chainExec_succ_checkpoint 59 0 60 25 none 1 false 0 none
    25 25 (foldRange 0 25 ⟨0, []⟩) s1
  have c2 := chainExec_succ_checkpoint 58 0 60 25 none 1 false 0
    (some ⟨25, 25, foldRange 0 25 ⟨0, []⟩⟩) 50 50 (foldRange 0 50 ⟨0, []⟩) s2
  have c3 := chainExec_succ_success 57 0 60 25 none 1 false 0
    (some ⟨50, 50, foldRange 0 50 ⟨0, []⟩⟩) 60 60 0
    ⟨foldRange 0 60 ⟨0, []⟩, 60, 2⟩ s3
  rw [show (60 : Nat) = 59 + 1 from rfl] at c1
  rw [c1, c2, c3]

/-- C2: checkpoint transparency — with no failure injection configured, the
chain of invocations over a range start..end with checkpoint interval K >= 1
(each checkpoint reattached on re-invocation) completes with items_processed
= end - start and accumulated_results equal to the pure single-pass fold,
exactly the result of one uninterrupted invocation (whose interval never
fires); the K=25 / range-length-60 example yields checkpoints at cursors 25
and 50 and completes at 60 with the same totals. -/
theorem claim_C2_checkpoint_transparency :
    ∀ startC endC K foa rc : Nat, 1 ≤ K → startC ≤ endC →
      (∃ tr, chainExec (endC - startC) startC endC K none foa false rc none =
        (tr, .success (endC - startC) (endC - startC) 0
          ⟨foldRange startC (endC - startC) ⟨0, []⟩, endC,
           (endC - startC) / K⟩)) ∧
      workerInvoke startC endC ((endC - startC) + 1) none foa false rc none =
        .success (endC - startC) (endC - startC) 0
          ⟨foldRange startC (endC - startC) ⟨0, []⟩, endC,
           (endC - startC) / ((endC - startC) + 1)⟩ ∧
      chainExec 60 0 60 25 none 1 false 0 none =
        ([⟨25, 25, foldRange 0 25 ⟨0, []⟩⟩, ⟨50, 50, foldRange 0 50 ⟨0, []⟩⟩],
         .success 60 60 0 ⟨foldRange 0 60 ⟨0, []⟩, 60, 2⟩) := by
  intro startC endC K foa rc hK hle
  have hnf : ∀ tp, failDue none tp (rc + 1) foa = false := fun _ => rfl
  refine ⟨?_, ?_, chainExec_example_25_60⟩
  · rw [chainExec_none_eq_resume]
    obtain ⟨tr, heq⟩ := chainExec_char_no_fail startC endC K none foa false rc
      hK hnf (endC - startC) startC 0 ⟨0, []⟩ (fun h => h) hle (by omega)
    refine ⟨tr, ?_⟩
    rw [heq]
    have e : 0 + (endC - startC) = endC - startC := by omega
    rw [e]
  · show workerLoop endC ((endC - startC) + 1) none foa false (rc + 1)
      startC ⟨0, []⟩ 0 0 = _
    rw [workerLoop_char_no_fail endC ((endC - startC) + 1) none foa false
      (rc + 1) hnf (endC - startC) startC ⟨0, []⟩ 0 0 rfl hle (by omega)]
    have hout : ¬ (startC + ((endC - startC) + 1 - 0) < endC) := by omega
    rw [if_neg hout]
    have e : 0 + (endC - startC) = endC - startC := by omega
    rw [e]

/-- Witness for C2 at start=0, end=60, K=25: the chain and the
single uninterrupted invocation produce the same items_processed = 60 and
the same 60-item fold. -/
theorem claim_C2_witness :
    (chainExec 60 0 60 25 none 1 false 0 none).2 =
      .success 60 60 0 ⟨foldRange 0 60 ⟨0, []⟩, 60, 2⟩ ∧
    workerInvoke 0 60 61 none 1 false 0 none =
      .success 60 60 0 ⟨foldRange 0 60 ⟨0, []⟩, 60, 0⟩ ∧
    (chainExec 60 0 60 25 none 1 false 0 none).1.map
      (fun s => (s.cursor, s.items_processed)) = [(25, 25), (50, 50)] := by
  have h := claim_C2_checkpoint_transparency 0 60 25 1 0 (by omega) (by omega)
  refine ⟨?_, h.2.1, ?_⟩
  · rw [h.2.2]
  · rw [h.2.2]
    rfl

/-- C6: failure-injection determinism — with fail_after_items=10,
fail_on_attempt=1, permanent_failure=false: on attempt 1 (retry_count=0) the
chain ends in the retryable transient Failure with exactly 10 items
processed and the cursor 10 past range start precisely when more than 10
items are in the range (a range of at most 10 items completes normally),
every committed checkpoint carries at most 10 processed items and exactly
the fold of the items it processed (no state mutated for the failing item);
on attempt 2 (retry_count=1) the same configuration completes normally. -/
theorem claim_C6_failure_injection :
    ∀ startC endC K : Nat, 1 ≤ K →
      (startC + 10 < endC →
        ∃ tr,
          chainExec (endC - startC) startC endC K (some 10) 1 false 0 none =
            (tr, .failure "Injected transient failure after 10 items"
              .RETRYABLE_ERROR true ⟨10, startC + 10, "transient"⟩) ∧
          ∀ s ∈ tr, s.items_processed ≤ 10 ∧
            s.accumulated_results = foldRange startC s.items_processed ⟨0, []⟩) ∧
      (startC ≤ endC → endC ≤ startC + 10 →
        (chainExec (endC - startC) startC endC K (some 10) 1 false 0 none).2 =
          .success (endC - startC) (endC - startC) 0
            ⟨foldRange startC (endC - startC) ⟨0, []⟩, endC,
             (endC - startC) / K⟩) ∧
      (startC ≤ endC →
        (chainExec (endC - startC) startC endC K (some 10) 1 false 1 none).2 =
          .success (endC - startC) (endC - startC) 0
            ⟨foldRange startC (endC - startC) ⟨0, []⟩, endC,
             (endC - startC) / K⟩) := by
  intro startC endC K hK
  refine ⟨?_, ?_, ?_⟩
  · intro hrange
    rw [chainExec_none_eq_resume]
    obtain ⟨tr, heq, hmem⟩ := chainExec_char_fail startC endC K 10 1 false 0
      hK rfl (endC - startC) startC 0 ⟨0, []⟩ (fun h => h) (by omega)
      (by omega) (by omega)
    have hcond : 10 < 0 + (endC - startC) := by omega
    rw [if_pos hcond] at heq
    refine ⟨tr, ?_, ?_⟩
    · rw [heq]
      have e : startC + (10 - 0) = startC + 10 := by omega
      rw [e]
      rfl
    · intro s hs
      obtain ⟨m1, m2, m3, m4⟩ := hmem s hs
      refine ⟨m2, ?_⟩
      rw [m4]
      have e : s.items_processed - 0 = s.items_processed := by omega
      rw [e]
  · intro hle hshort
    rw [chainExec_none_eq_resume]
    obtain ⟨tr, heq, hmem⟩ := chainExec_char_fail startC endC K 10 1 false 0
      hK rfl (endC - startC) startC 0 ⟨0, []⟩ (fun h => h) hle (by omega)
      (by omega)
    have hcond : ¬ (10 < 0 + (endC - startC)) := by omega
    rw [if_neg hcond] at heq
    rw [heq]
    have e : 0 + (endC - startC) = endC - startC := by omega
    rw [e]
  · intro hle
    rw [chainExec_none_eq_resume]
    have hnf : ∀ tp, failDue (some 10) tp (1 + 1) 1 = false := by
      intro tp
      simp [failDue]
    obtain ⟨tr, heq⟩ := chainExec_char_no_fail startC endC K (some 10) 1 false
      1 hK hnf (endC - startC) startC 0 ⟨0, []⟩ (fun h => h) hle (by omega)
    rw [heq]
    have e : 0 + (endC - startC) = endC - startC := by omega
    rw [e]

/-- Witness for C6 at start=0, end=60, K=25: attempt 1 fails retryable with
exactly 10 items processed at cursor 10; attempt 2 completes all 60 items. -/
theorem claim_C6_witness :
    (chainExec 60 0 60 25 (some 10) 1 false 0 none).2 =
      .failure "Injected transient failure after 10 items" .RETRYABLE_ERROR true
        ⟨10, 10, "transient"⟩ ∧
    (chainExec 60 0 60 25 (some 10) 1 false 1 none).2 =
      .success 60 60 0 ⟨foldRange 0 60 ⟨0, []⟩, 60, 2⟩ := by
  have h := claim_C6_failure_injection 0 60 25 (by omega)
  obtain ⟨tr, heq, _⟩ := h.1 (by omega)
  constructor
  · exact congrArg Prod.snd heq
  · exact h.2.2 (by omega)

end TaskerCore
